import Mathlib

/-!
# Storefront / admin front end: pagination, related products, fetch helper

A shallow embedding of the decision logic of

* `src/components/admin/ProductForm.jsx` (admin list: 4 products per page,
  checkbox toggling of the form state),
* `src/pages/CatalogPage.jsx` (public catalog: 12 products per page, category
  filter),
* `src/pages/ProductDetailPage.jsx` (loading, not-found fallback, related
  products),
* `src/utils/api.js` (the request that `apiFetch` builds and its outcome),

followed by theorems about these definitions.

JavaScript numbers that hold page numbers, indices and lengths are modelled
as `Int`; `Math.ceil (a / b)` is the ceiling of the exact quotient in `ℚ`.
React state is passed explicitly: every handler is a function of the values
its closure captured at render time.
-/

namespace Frontend

/-! ## Library functions of the host language -/

/-- Library method `Array.prototype.slice(start, end)`: a negative bound counts from the end
of the array, both bounds are clamped into `[0, length]`, and the result is
empty when the clamped end does not exceed the clamped start. -/
def jsSlice {α : Type} (xs : List α) (start stop : Int) : List α :=
  let len : Int := xs.length
  let k : Int := if start < 0 then max (len + start) 0 else min start len
  let final : Int := if stop < 0 then max (len + stop) 0 else min stop len
  (xs.drop k.toNat).take (final - k).toNat

/-- Library function `Math.ceil(a / b)` on integer-valued numbers: ceiling of the exact quotient. -/
def mathCeilDiv (a b : Int) : Int := ⌈(a : ℚ) / (b : ℚ)⌉

/-- Library function `Math.floor(a / b)` on integer-valued numbers: floor of the exact quotient. -/
def mathFloorDiv (a b : Int) : Int := ⌊(a : ℚ) / (b : ℚ)⌋

/-! ## Data model -/

/-- Category reference as populated by the backend: identifier and name. -/
structure Category where
  _id : String
  name : String
  deriving DecidableEq, Repr

/-- Product record. `categories` is optional because the pages read it with
optional chaining (`p.categories?.…`). -/
structure Product where
  _id : String
  name : String
  categories : Option (List Category)
  deriving DecidableEq, Repr

/-! ## Page-number window (`getPageNumbers`) -/

/-- The loop `for (let i = startPage; i <= endPage; i++) pages.push(i)`,
run for at most `fuel` iterations. -/
def pushPages : Nat → Int → Int → List Int → List Int
  | 0, _, _, pages => pages
  | fuel + 1, i, endPage, pages =>
    if i ≤ endPage then pushPages fuel (i + 1) endPage (pages ++ [i]) else pages

/-- Function `getPageNumbers` of `ProductForm.jsx` and `CatalogPage.jsx` (the two bodies
are identical), as a function of the captured `currentPage` and `totalPages`.
The loop is given `endPage + 1 - startPage` iterations, which is exactly the
number it performs (`pushPages_fuel_irrelevant`). -/
def getPageNumbers (currentPage totalPages : Int) : List Int :=
  let maxVisiblePages : Int := 5
  let startPage : Int := max 1 (currentPage - mathFloorDiv maxVisiblePages 2)
  let endPage : Int := min totalPages (startPage + maxVisiblePages - 1)
  let startPage : Int :=
    if endPage - startPage + 1 < maxVisiblePages then max 1 (endPage - maxVisiblePages + 1)
    else startPage
  pushPages (endPage + 1 - startPage).toNat startPage endPage []

/-! ## Admin product list (`ProductForm.jsx`) -/

namespace ProductForm

/-- Source line `const itemsPerPage = 4`. -/
def itemsPerPage : Int := 4

/-- Source line `const totalProducts = products.length`. -/
def totalProducts (products : List Product) : Int := products.length

/-- Source line `const totalPages = Math.ceil(totalProducts / itemsPerPage)`. -/
def totalPages (products : List Product) : Int :=
  mathCeilDiv (totalProducts products) itemsPerPage

/-- Source line `const startIndex = (currentPage - 1) * itemsPerPage`. -/
def startIndex (currentPage : Int) : Int := (currentPage - 1) * itemsPerPage

/-- Source line `const endIndex = startIndex + itemsPerPage`. -/
def endIndex (currentPage : Int) : Int := startIndex currentPage + itemsPerPage

/-- Source line `const currentProducts = products.slice(startIndex, endIndex)`. -/
def currentProducts (products : List Product) (currentPage : Int) : List Product :=
  jsSlice products (startIndex currentPage) (endIndex currentPage)

/-- The loop `for (let i = 0; i < emptySlots; i++) displayedProducts.push(null)`,
run for at most `fuel` iterations; `none` is the `null` marker. -/
def pushEmptySlots : Nat → Int → Int → List (Option Product) → List (Option Product)
  | 0, _, _, displayed => displayed
  | fuel + 1, i, emptySlots, displayed =>
    if i < emptySlots then pushEmptySlots fuel (i + 1) emptySlots (displayed ++ [none])
    else displayed

/-- List `displayedProducts`: a copy of `currentProducts` padded with `null`. The
loop is given `emptySlots` iterations, exactly the number it performs. -/
def displayedProducts (products : List Product) (currentPage : Int) : List (Option Product) :=
  let displayed : List (Option Product) := (currentProducts products currentPage).map some
  let emptySlots : Int := itemsPerPage - (displayed.length : Int)
  pushEmptySlots emptySlots.toNat 0 emptySlots displayed

/-- Handler `handleDelete`, as the page number it leaves behind. `confirmed` is the
answer of `window.confirm`, `deleteOk` tells whether the DELETE request
resolved (a rejected request jumps to the `catch` block). -/
def handleDelete (confirmed deleteOk : Bool) (products : List Product) (currentPage : Int) : Int :=
  if !confirmed then currentPage
  else if deleteOk then
    if ((currentProducts products currentPage).length : Int) = 1 ∧ currentPage > 1 then
      currentPage - 1
    else currentPage
  else currentPage

/-- Handler `handleSubmit`, as the page number it leaves behind: `setCurrentPage(1)` is
reached only when the request resolved. -/
def handleSubmit (submitOk : Bool) (currentPage : Int) : Int :=
  if submitOk then 1 else currentPage

/-- Handler `goToPage`. -/
def goToPage (page : Int) : Int := page

/-- Handler `goToNextPage`. -/
def goToNextPage (currentPage totalPages : Int) : Int :=
  if currentPage < totalPages then currentPage + 1 else currentPage

/-- Handler `goToPrevPage`. -/
def goToPrevPage (currentPage : Int) : Int :=
  if currentPage > 1 then currentPage - 1 else currentPage

/-- Attribute `disabled={currentPage === 1}` on the "Anterior" button. -/
def prevDisabled (currentPage : Int) : Bool := currentPage == 1

/-- Attribute `disabled={currentPage === totalPages}` on the "Siguiente" button. -/
def nextDisabled (currentPage totalPages : Int) : Bool := currentPage == totalPages

/-- Pagination state of the admin list: the product collection of the context
and the `currentPage` state variable. -/
structure PageState where
  products : List Product
  currentPage : Int

/-- The current-page invariant of the specification: `currentPage` lies in
`[1, totalPages]`, or is `1` when there are no pages. -/
def PageInvariant (s : PageState) : Prop :=
  (1 ≤ s.currentPage ∧ s.currentPage ≤ totalPages s.products) ∨
    (totalPages s.products = 0 ∧ s.currentPage = 1)

/-- The call of `setCurrentPage` at the end of the `try` block of `handleDelete`:
`some (currentPage - 1)` when it is made, `none` when the page is left alone.
The values read are those of the render that created the handler. -/
def handleDeleteSetPage (products : List Product) (currentPage : Int) : Option Int :=
  if ((currentProducts products currentPage).length : Int) = 1 ∧ currentPage > 1 then
    some (currentPage - 1)
  else none

/-- A confirmed `handleDelete(id)` that has sent its DELETE request and waits at
`await apiFetch(...)`, with the `products` and `currentPage` its closure
captured from the render in which the button was clicked. -/
structure PendingDelete where
  id : String
  products : List Product
  currentPage : Int
  deriving DecidableEq

/-- The admin list over time: the collection held by the backend, the
collection held by the product context (the one that is rendered), the
`currentPage` state variable, the deletes whose request has not resolved, and
the number of `fetchProducts()` calls that have not resolved. -/
structure AdminState where
  server : List Product
  products : List Product
  currentPage : Int
  deleting : List PendingDelete
  fetching : Nat

/-- Modelled from the spec: the backend's `DELETE /api/products/:id`, which is
external to the sources and deletes a product by identifier. -/
def serverDelete (server : List Product) (id : String) : List Product :=
  server.filter (fun p => p._id != id)

/-- Modelled from the spec: `fetchProducts` of the product context (the context
is not among the sources), which replaces the collection of the context by the
list the backend returns for `GET /api/products`. -/
def fetchProducts (server : List Product) : List Product := server

/-- One event of the admin list. The handlers are those of `ProductForm.jsx`;
`handleDelete` is asynchronous, so its click and the resolution of its request
are two events, and it calls `fetchProducts()` without awaiting it, so the
refresh of the rendered collection is a third. A handler reads the `products`
and `currentPage` of the render in which it was created. -/
inductive AdminStep : AdminState → AdminState → Prop
  | next (s : AdminState) :
      AdminStep s { s with currentPage := goToNextPage s.currentPage (totalPages s.products) }
  | prev (s : AdminState) :
      AdminStep s { s with currentPage := goToPrevPage s.currentPage }
  | page (s : AdminState) (p : Int)
      (hp : p ∈ getPageNumbers s.currentPage (totalPages s.products)) :
      AdminStep s { s with currentPage := goToPage p }
  | deleteClick (s : AdminState) (i : Nat) (product : Product)
      (hlo : startIndex s.currentPage ≤ (i : Int))
      (hhi : (i : Int) < endIndex s.currentPage)
      (hget : s.products[i]? = some product) :
      AdminStep s
        { s with deleting := ⟨product._id, s.products, s.currentPage⟩ :: s.deleting }
  | deleteResolve (s : AdminState) (d : PendingDelete)
      (hd : d ∈ s.deleting) (hserver : ∃ p ∈ s.server, p._id = d.id) :
      AdminStep s
        { server := serverDelete s.server d.id
          products := s.products
          currentPage := (handleDeleteSetPage d.products d.currentPage).getD s.currentPage
          deleting := s.deleting.erase d
          fetching := s.fetching + 1 }
  | fetchResolve (s : AdminState) (hfetching : 0 < s.fetching) :
      AdminStep s { s with products := fetchProducts s.server, fetching := s.fetching - 1 }
  | submit (s : AdminState) (server : List Product) :
      AdminStep s
        { s with server := server, currentPage := handleSubmit true s.currentPage,
                 fetching := s.fetching + 1 }

/-- States reachable from `useState(1)` with any product collection, rendered
and in step with the backend, and nothing in flight. -/
inductive AdminReachable : AdminState → Prop
  | init (products : List Product) : AdminReachable ⟨products, products, 1, [], 0⟩
  | step {s t : AdminState} (hs : AdminReachable s) (hst : AdminStep s t) : AdminReachable t

end ProductForm

/-! ## Public catalog (`CatalogPage.jsx`) -/

namespace CatalogPage

/-- Source line `const productsPerPage = 12`. -/
def productsPerPage : Int := 12

/-- Source line `const totalPages = Math.ceil(filteredProducts.length / productsPerPage)`. -/
def totalPages (filteredProducts : List Product) : Int :=
  mathCeilDiv (filteredProducts.length : Int) productsPerPage

/-- Source line `const startIndex = (currentPage - 1) * productsPerPage`. -/
def startIndex (currentPage : Int) : Int := (currentPage - 1) * productsPerPage

/-- Expression `filteredProducts.slice(startIndex, startIndex + productsPerPage)`. -/
def currentProducts (filteredProducts : List Product) (currentPage : Int) : List Product :=
  jsSlice filteredProducts (startIndex currentPage) (startIndex currentPage + productsPerPage)

/-- Handler `goToPage`. -/
def goToPage (page : Int) : Int := page

/-- Handler `goToNextPage`. -/
def goToNextPage (currentPage totalPages : Int) : Int :=
  if currentPage < totalPages then currentPage + 1 else currentPage

/-- Handler `goToPrevPage`. -/
def goToPrevPage (currentPage : Int) : Int :=
  if currentPage > 1 then currentPage - 1 else currentPage

/-- Attribute `disabled={currentPage === 1}` on the "Anterior" button. -/
def prevDisabled (currentPage : Int) : Bool := currentPage == 1

/-- Attribute `disabled={currentPage === totalPages}` on the "Siguiente" button. -/
def nextDisabled (currentPage totalPages : Int) : Bool := currentPage == totalPages

end CatalogPage

/-! ## Related products (`ProductDetailPage.jsx`) -/

namespace ProductDetailPage

/-- The callback of `products.filter(...)`:
`p.categories?.some(cat => currentProduct.categories?.map(c => c._id).includes(cat._id))
 && p._id !== currentProduct._id`.
An optional chain on a missing `categories` yields `undefined`, which is falsy. -/
def relatedFilter (currentProduct p : Product) : Bool :=
  (match p.categories with
    | none => false
    | some cats =>
      cats.any (fun cat =>
        match currentProduct.categories with
        | none => false
        | some cs => (cs.map (fun c => c._id)).contains cat._id))
  && (p._id != currentProduct._id)

/-- Expression `products.filter(...).slice(0, 4)`: the list that is rendered. -/
def relatedProducts (products : List Product) (currentProduct : Product) : List Product :=
  jsSlice (products.filter (relatedFilter currentProduct)) 0 4

/-- The selection rule in the words of the specification: `q` is not the
current product and shares a category identifier with it. -/
def SharesCategory (currentProduct q : Product) : Prop :=
  q._id ≠ currentProduct._id ∧
    ∃ cq ∈ q.categories.getD [], ∃ cp ∈ currentProduct.categories.getD [], cq._id = cp._id

end ProductDetailPage

instance (currentProduct q : Product) :
    Decidable (ProductDetailPage.SharesCategory currentProduct q) := by
  unfold ProductDetailPage.SharesCategory
  infer_instance

/-! ## Fetch helper (`utils/api.js`) -/

namespace Api

/-- Plain object with string-valued properties, in insertion order. -/
abbrev JsObject := List (String × String)

/-- Property assignment `o[k] = v`: an existing key keeps its position and
takes the new value, a new key is added at the end. -/
def objSet : JsObject → String → String → JsObject
  | [], k, v => [(k, v)]
  | (k', v') :: rest, k, v =>
    if k' = k then (k, v) :: rest else (k', v') :: objSet rest k v

/-- Property read `o[k]` (`none` is `undefined`). -/
def objGet : JsObject → String → Option String
  | [], _ => none
  | (k', v') :: rest, k => if k' = k then some v' else objGet rest k

/-- One spread element `{...target, ...source}`: the own properties of `source`
are assigned onto `target` in order. -/
def objSpread (target source : JsObject) : JsObject :=
  source.foldl (fun acc kv => objSet acc kv.1 kv.2) target

/-- Values a caller can pass as `options.body`. -/
inductive JsValue where
  | undefined
  | null
  | bool (b : Bool)
  | number (n : Int)
  | string (s : String)
  | object (fields : JsObject)
  | formData (entries : List (String × String))
  deriving DecidableEq, Repr

/-- Test `body instanceof FormData`. -/
def JsValue.isFormData : JsValue → Bool
  | .formData _ => true
  | _ => false

/-- The `options` argument of `apiFetch`, as far as `apiFetch` reads it. -/
structure Options where
  method : Option String
  headers : Option JsObject
  body : JsValue

/-- Truthiness of `localStorage.getItem("adminToken")`: `null` (no entry) and
the empty string are falsy. -/
def tokenTruthy : Option String → Bool
  | none => false
  | some t => t != ""

/-- The `headers` object built by `apiFetch` and handed to `fetch`:
`{ ...(isFormData ? {} : {"Content-Type": "application/json"}),
   ...(options.headers || {}),
   ...(token ? {Authorization: "Bearer " + token} : {}) }`. -/
def apiFetchHeaders (token : Option String) (options : Options) : JsObject :=
  let isFormData := options.body.isFormData
  let headers : JsObject := []
  let headers := objSpread headers
    (if isFormData then [] else [("Content-Type", "application/json")])
  let headers := objSpread headers (options.headers.getD [])
  let headers := objSpread headers
    (if tokenTruthy token then [("Authorization", "Bearer " ++ token.getD "")] else [])
  headers

end Api

/-! ## Fetch helper: request body, token and outcome -/

namespace Api

/-- Truthiness of a value (`ToBoolean`): `undefined`, `null`, `false`, `0` and
the empty string are falsy, every object is truthy. -/
def JsValue.truthy : JsValue → Bool
  | .undefined => false
  | .null => false
  | .bool b => b
  | .number n => n != 0
  | .string s => s != ""
  | .object _ => true
  | .formData _ => true

/-- Lower-case hexadecimal digit of `n < 16`. -/
def hexDigit (n : Nat) : Char :=
  if n < 10 then Char.ofNat (48 + n) else Char.ofNat (87 + n)

/-- One character of a JSON string literal, as `JSON.stringify` writes it: the
double quote and the backslash are escaped, control characters are written with
their short escape or as a four-digit code unit escape. -/
def jsonQuoteChar (c : Char) : List Char :=
  let backslash := Char.ofNat 92
  if c = Char.ofNat 34 then [backslash, Char.ofNat 34]
  else if c = backslash then [backslash, backslash]
  else if c = Char.ofNat 8 then [backslash, 'b']
  else if c = Char.ofNat 12 then [backslash, 'f']
  else if c = Char.ofNat 10 then [backslash, 'n']
  else if c = Char.ofNat 13 then [backslash, 'r']
  else if c = Char.ofNat 9 then [backslash, 't']
  else if c.toNat < 32 then
    [backslash, 'u', '0', '0', hexDigit (c.toNat / 16), hexDigit (c.toNat % 16)]
  else [c]

/-- JSON string literal for `s`. -/
def jsonQuote (s : String) : String :=
  String.mk ([Char.ofNat 34] ++ (s.toList.map jsonQuoteChar).flatten ++ [Char.ofNat 34])

/-- Library function `JSON.stringify` on the values of `JsValue`: the result is a string,
or `undefined` for `undefined`. Numbers are integer-valued and printed in
decimal; a `FormData` has no own enumerable properties. -/
def jsonStringify : JsValue → JsValue
  | .undefined => .undefined
  | .null => .string "null"
  | .bool b => .string (if b then "true" else "false")
  | .number n => .string (toString n)
  | .string s => .string (jsonQuote s)
  | .object fields =>
    .string ("\x7b" ++ ",".intercalate (fields.map (fun kv => jsonQuote kv.1 ++ ":" ++ jsonQuote kv.2))
      ++ "\x7d")
  | .formData _ => .string "\x7b\x7d"

/-- The `body` handed to `fetch`:
`isFormData ? options.body : options.body ? JSON.stringify(options.body) : undefined`. -/
def apiFetchBody (options : Options) : JsValue :=
  let isFormData := options.body.isFormData
  if isFormData then options.body
  else if options.body.truthy then jsonStringify options.body
  else .undefined

/-- Source line `const token = localStorage.getItem("adminToken")`, with the local storage as
a key-value object; a missing entry reads as `null` (`none`). -/
def getToken (localStorage : JsObject) : Option String :=
  objGet localStorage "adminToken"

/-- The response of `fetch`, as far as `apiFetch` reads it: `ok`, `status`, the
text of the body (`res.text()`), and the outcome of `res.json()`, which
resolves with the parsed value or rejects (`none`) on an empty or non-JSON
body. -/
structure Response (α : Type) where
  ok : Bool
  status : Nat
  text : String
  json : Option α

/-- The outcome of `apiFetch` once `fetch` has resolved with `res`: `Except.error`
carries the message of the thrown `Error`, `Except.ok` the returned value;
`jsNull` is the value `null`. -/
def apiFetchResult {α : Type} (jsNull : α) (res : Response α) : Except String α :=
  if !res.ok then
    let errorText := res.text
    .error ("Error " ++ toString res.status ++ ": " ++ errorText)
  else
    match res.json with
    | some value => .ok value
    | none => .ok jsNull

end Api

/-! ## Detail page: loading and rendering (`ProductDetailPage.jsx`) -/

namespace ProductDetailPage

/-- What one run of `loadData` did. -/
structure LoadOutcome where
  /-- Whether `fetchProducts()` was called. -/
  fetched : Bool
  /-- Whether `setLoading(false)` was called. -/
  loadingCleared : Bool
  /-- The argument of `setCurrentProduct`, when it was called. -/
  foundProduct : Option Product
  /-- Whether `window.location.reload()` was called. -/
  reloaded : Bool
  deriving DecidableEq, Repr

/-- The lookup `products.find((p) => p._id === id)`. -/
def findProduct (products : List Product) (id : String) : Option Product :=
  products.find? (fun p => p._id == id)

/-- One run of `loadData`. `products`, `id` and `hasLoaded` are the values the
effect closure captured; `isMounted` is the flag when the run reaches its test
(it is still `true` when nothing was awaited) and `fetchOk` tells whether the
awaited `fetchProducts()` resolved. -/
def loadData (products : List Product) (id : String) (hasLoaded isMounted fetchOk : Bool) :
    LoadOutcome :=
  let fetched := decide ((products.length : Int) = 0)
  if fetched && !fetchOk then
    { fetched := true, loadingCleared := false, foundProduct := none, reloaded := false }
  else if isMounted then
    let foundProduct := findProduct products id
    if foundProduct.isNone && !hasLoaded && decide ((products.length : Int) > 0) then
      { fetched := fetched, loadingCleared := true, foundProduct := foundProduct,
        reloaded := true }
    else
      { fetched := fetched, loadingCleared := true, foundProduct := foundProduct,
        reloaded := false }
  else
    { fetched := fetched, loadingCleared := false, foundProduct := none, reloaded := false }

/-- Modelled from the spec: `fetchProducts` of the product context (the context
is not among the sources) replaces the collection of the context by the list
`serverProducts` that the backend returns. This is the collection of the
context once a run of `loadData` that captured `products` is over: the run
calls `fetchProducts` exactly when the list it captured is empty. -/
def collectionAfter (products serverProducts : List Product) (fetchOk : Bool) :
    List Product :=
  if decide ((products.length : Int) = 0) && fetchOk then serverProducts else products

/-- The three views the component can return. -/
inductive View where
  | loading
  | notFound
  | detail (product : Product)
  deriving DecidableEq, Repr

/-- The branches of the component body:
`if (loading) …; if (!currentProduct) …; return <detail view>`. -/
def render (loading : Bool) (currentProduct : Option Product) : View :=
  if loading then .loading
  else
    match currentProduct with
    | none => .notFound
    | some product => .detail product

end ProductDetailPage

/-! ## Catalog category filter (`CatalogPage.jsx`) -/

namespace CatalogPage

/-- An array element or search value as `Array.prototype.includes` compares it:
a category record (an object) or a string. -/
inductive JsElem where
  | record (c : Category)
  | text (s : String)
  deriving DecidableEq, Repr

/-- The comparison of `includes` (SameValueZero) of an array element with a
string: a string matches when it is the same string, an object never equals a
string. -/
def JsElem.sameAsText : JsElem → String → Bool
  | .text s, needle => s == needle
  | .record _, _ => false

/-- Library method `Array.prototype.includes` with a string argument. -/
def jsIncludesText (xs : List JsElem) (needle : String) : Bool :=
  xs.any (fun x => x.sameAsText needle)

/-- Source expression `selectedCategory === 'all' ? products
  : products.filter((p) => p.categories?.includes(selectedCategory))`.
The elements of `p.categories` are category records; `selectedCategory` is
`'all'` or the `name` of a category (set by the filter buttons). -/
def filteredProducts (products : List Product) (selectedCategory : String) : List Product :=
  if selectedCategory == "all" then products
  else
    products.filter (fun p =>
      match p.categories with
      | none => false
      | some cats => jsIncludesText (cats.map JsElem.record) selectedCategory)

/-- The filter in the words of the specification: the product has a category
whose name is the selected one. -/
def BelongsTo (selectedCategory : String) (p : Product) : Prop :=
  ∃ c ∈ p.categories.getD [], c.name = selectedCategory

end CatalogPage

instance (selectedCategory : String) (p : Product) :
    Decidable (CatalogPage.BelongsTo selectedCategory p) := by
  unfold CatalogPage.BelongsTo
  infer_instance

/-! ## Product form state (`ProductForm.jsx`) -/

namespace ProductForm

/-- The `formData` state object. -/
structure FormData where
  name : String
  description : String
  price : String
  sizes : List String
  colors : List String
  categories : List String
  image : Option String
  deriving DecidableEq, Repr

/-- The three keys `handleCheckboxChange` is called with. -/
inductive CheckboxType where
  | sizes
  | colors
  | categories
  deriving DecidableEq, Repr

/-- Property read `prev[type]`. -/
def FormData.get (prev : FormData) : CheckboxType → List String
  | .sizes => prev.sizes
  | .colors => prev.colors
  | .categories => prev.categories

/-- Object literal `{ ...prev, [type]: list }`. -/
def FormData.set (prev : FormData) : CheckboxType → List String → FormData
  | .sizes, list => { prev with sizes := list }
  | .colors, list => { prev with colors := list }
  | .categories, list => { prev with categories := list }

/-- Handler `handleCheckboxChange`, as the state update it passes to `setFormData`. -/
def handleCheckboxChange (type : CheckboxType) (value : String) (prev : FormData) : FormData :=
  prev.set type
    (if (prev.get type).contains value then (prev.get type).filter (fun item => item != value)
     else prev.get type ++ [value])

end ProductForm

/-! ## Sample data used to instantiate the theorems -/

/-- Product with identifier `id` whose categories carry the identifiers `cats`. -/
def mkProduct (id : String) (cats : List String) : Product :=
  { _id := id, name := id, categories := some (cats.map (fun c => { _id := c, name := c })) }

/-- Ten products, as in the worked example of the specification. -/
def sampleProducts : List Product :=
  [mkProduct "p1" ["a"], mkProduct "p2" ["b"], mkProduct "p3" ["a", "b"], mkProduct "p4" [],
   mkProduct "p5" ["a"], mkProduct "p6" ["c"], mkProduct "p7" ["a"], mkProduct "p8" ["a"],
   mkProduct "p9" ["b"], mkProduct "p10" ["a"]]

/-! ## Helper lemmas -/

theorem mathFloorDiv_five_two : mathFloorDiv 5 2 = 2 := by
  unfold mathFloorDiv
  rw [Int.floor_eq_iff]
  constructor <;> norm_num

theorem pushPages_eq (fuel : Nat) (i endPage : Int) (pages : List Int)
    (h : endPage + 1 - i ≤ fuel) :
    pushPages fuel i endPage pages
      = pages ++ (List.range (endPage + 1 - i).toNat).map (fun (k : Nat) => i + (k : Int)) := by
  induction fuel generalizing i pages with
  | zero =>
    have : (endPage + 1 - i).toNat = 0 := by omega
    simp [pushPages, this]
  | succ n ih =>
    unfold pushPages
    split
    · rename_i hle
      rw [ih (i + 1) (pages ++ [i]) (by omega)]
      have e : (endPage + 1 - i).toNat = (endPage + 1 - (i + 1)).toNat + 1 := by omega
      rw [e, List.range_succ_eq_map]
      simp only [List.map_cons, List.map_map, List.append_assoc, List.singleton_append]
      congr 2
      · simp
      · apply List.map_congr_left
        intro k _
        simp only [Function.comp, Nat.succ_eq_add_one]
        push_cast
        ring
    · rename_i hgt
      have : (endPage + 1 - i).toNat = 0 := by omega
      simp [this]

/-- Extra fuel does not change the result: the loop of `getPageNumbers` ends by
its own guard `i <= endPage`. -/
theorem pushPages_fuel_irrelevant (extra : Nat) (i endPage : Int) (pages : List Int) :
    pushPages ((endPage + 1 - i).toNat + extra) i endPage pages
      = pushPages (endPage + 1 - i).toNat i endPage pages := by
  rw [pushPages_eq _ _ _ _ (by omega), pushPages_eq _ _ _ _ (by omega)]

theorem getPageNumbers_eq (currentPage totalPages : Int) :
    getPageNumbers currentPage totalPages =
      (List.range (min totalPages (max 1 (currentPage - 2) + 4) + 1
          - (if min totalPages (max 1 (currentPage - 2) + 4) - max 1 (currentPage - 2) + 1 < 5
              then max 1 (min totalPages (max 1 (currentPage - 2) + 4) - 4)
              else max 1 (currentPage - 2))).toNat).map
        (fun (k : Nat) => (if min totalPages (max 1 (currentPage - 2) + 4) - max 1 (currentPage - 2) + 1 < 5
              then max 1 (min totalPages (max 1 (currentPage - 2) + 4) - 4)
              else max 1 (currentPage - 2)) + (k : Int)) := by
  unfold getPageNumbers
  simp only [mathFloorDiv_five_two]
  rw [pushPages_eq _ _ _ _ (by omega)]
  simp only [List.nil_append]
  have e1 : ∀ x : Int, x + 5 - 1 = x + 4 := fun x => by ring
  have e2 : ∀ x : Int, x - 5 + 1 = x - 4 := fun x => by ring
  simp only [e1, e2]

theorem mathCeilDiv_le_iff (a b k : Int) (hb : 0 < b) : mathCeilDiv a b ≤ k ↔ a ≤ k * b := by
  unfold mathCeilDiv
  have hb' : (0 : ℚ) < (b : ℚ) := by exact_mod_cast hb
  rw [Int.ceil_le, div_le_iff₀ hb']
  norm_cast

theorem mathCeilDiv_isLeast (a b : Int) (hb : 0 < b) :
    IsLeast {k : Int | a ≤ k * b} (mathCeilDiv a b) := by
  constructor
  · exact (mathCeilDiv_le_iff a b _ hb).mp le_rfl
  · intro k hk
    exact (mathCeilDiv_le_iff a b k hb).mpr hk

theorem mathCeilDiv_four (n : Int) : mathCeilDiv n 4 = (n + 3) / 4 := by
  apply le_antisymm
  · rw [mathCeilDiv_le_iff n 4 _ (by decide)]
    omega
  · have h := (mathCeilDiv_le_iff n 4 (mathCeilDiv n 4) (by decide)).mp le_rfl
    omega

theorem mathCeilDiv_twelve (n : Int) : mathCeilDiv n 12 = (n + 11) / 12 := by
  apply le_antisymm
  · rw [mathCeilDiv_le_iff n 12 _ (by decide)]
    omega
  · have h := (mathCeilDiv_le_iff n 12 (mathCeilDiv n 12) (by decide)).mp le_rfl
    omega

theorem admin_totalPages_eq (products : List Product) :
    ProductForm.totalPages products = ((products.length : Int) + 3) / 4 := by
  unfold ProductForm.totalPages ProductForm.totalProducts ProductForm.itemsPerPage
  exact mathCeilDiv_four _

theorem catalog_totalPages_eq (filteredProducts : List Product) :
    CatalogPage.totalPages filteredProducts = ((filteredProducts.length : Int) + 11) / 12 := by
  unfold CatalogPage.totalPages CatalogPage.productsPerPage
  exact mathCeilDiv_twelve _

theorem jsSlice_of_nonneg {α : Type} (xs : List α) (a b : Int) (ha : 0 ≤ a) (hab : a ≤ b) :
    jsSlice xs a b = (xs.drop a.toNat).take (b - a).toNat := by
  unfold jsSlice
  simp only [show ¬ a < 0 by omega, show ¬ b < 0 by omega, if_false]
  by_cases h : a ≤ (xs.length : Int)
  · have hk : (min a (xs.length : Int)).toNat = a.toNat := by omega
    rw [hk, List.take_eq_take, List.length_drop]
    omega
  · have h1 : xs.length ≤ (min a (xs.length : Int)).toNat := by omega
    have h2 : xs.length ≤ a.toNat := by omega
    rw [List.drop_eq_nil_of_le h1, List.drop_eq_nil_of_le h2]
    simp

theorem pushEmptySlots_eq (fuel : Nat) (i emptySlots : Int) (displayed : List (Option Product))
    (h : emptySlots - i ≤ fuel) :
    ProductForm.pushEmptySlots fuel i emptySlots displayed
      = displayed ++ List.replicate (emptySlots - i).toNat none := by
  induction fuel generalizing i displayed with
  | zero =>
    have : (emptySlots - i).toNat = 0 := by omega
    simp [ProductForm.pushEmptySlots, this]
  | succ n ih =>
    unfold ProductForm.pushEmptySlots
    split
    · rw [ih (i + 1) (displayed ++ [none]) (by omega)]
      have e : (emptySlots - i).toNat = (emptySlots - (i + 1)).toNat + 1 := by omega
      rw [e, List.replicate_succ, List.append_assoc]
      rfl
    · have : (emptySlots - i).toNat = 0 := by omega
      simp [this]

/-- Extra fuel does not change the padding loop either. -/
theorem pushEmptySlots_fuel_irrelevant (extra : Nat) (emptySlots : Int)
    (displayed : List (Option Product)) :
    ProductForm.pushEmptySlots (emptySlots.toNat + extra) 0 emptySlots displayed
      = ProductForm.pushEmptySlots emptySlots.toNat 0 emptySlots displayed := by
  rw [pushEmptySlots_eq _ _ _ _ (by omega), pushEmptySlots_eq _ _ _ _ (by omega)]

theorem admin_currentProducts_eq (products : List Product) (currentPage : Int)
    (h : 1 ≤ currentPage) :
    ProductForm.currentProducts products currentPage
      = (products.drop ((currentPage - 1) * 4).toNat).take 4 := by
  unfold ProductForm.currentProducts ProductForm.endIndex ProductForm.startIndex
    ProductForm.itemsPerPage
  rw [jsSlice_of_nonneg _ _ _ (by omega) (by omega)]
  congr 1
  omega

theorem catalog_currentProducts_eq (filteredProducts : List Product) (currentPage : Int)
    (h : 1 ≤ currentPage) :
    CatalogPage.currentProducts filteredProducts currentPage
      = (filteredProducts.drop ((currentPage - 1) * 12).toNat).take 12 := by
  unfold CatalogPage.currentProducts CatalogPage.startIndex CatalogPage.productsPerPage
  rw [jsSlice_of_nonneg _ _ _ (by omega) (by omega)]
  congr 1
  omega

theorem admin_displayedProducts_eq (products : List Product) (currentPage : Int) :
    ProductForm.displayedProducts products currentPage
      = (ProductForm.currentProducts products currentPage).map some
        ++ List.replicate (4 - (ProductForm.currentProducts products currentPage).length) none := by
  unfold ProductForm.displayedProducts ProductForm.itemsPerPage
  simp only []
  rw [pushEmptySlots_eq _ _ _ _ (by omega), List.length_map]
  congr 2
  omega

theorem getPageNumbers_mem (currentPage totalPages p : Int)
    (hp : p ∈ getPageNumbers currentPage totalPages) : 1 ≤ p ∧ p ≤ totalPages := by
  rw [getPageNumbers_eq, List.mem_map] at hp
  obtain ⟨k, hk, rfl⟩ := hp
  rw [List.mem_range] at hk
  split at hk <;> rename_i hc <;> simp only [hc, if_true, if_false] <;> omega

/-- What `handleDelete` returns as the page is the page it sets, or the page it
was given. -/
theorem handleDelete_eq_setPage (products : List Product) (currentPage : Int) :
    ProductForm.handleDelete true true products currentPage
      = (ProductForm.handleDeleteSetPage products currentPage).getD currentPage := by
  unfold ProductForm.handleDelete ProductForm.handleDeleteSetPage
  simp only [Bool.not_true, Bool.false_eq_true, if_false, if_true]
  split <;> rfl

/-- Each handler on its own keeps the current-page invariant when it acts on the
render of the collection as it is and, for a delete, the list is refreshed
before anything else happens. -/
theorem admin_sequential_preserves (products : List Product) (currentPage : Int)
    (hinv : ProductForm.PageInvariant ⟨products, currentPage⟩) :
    ProductForm.PageInvariant
        ⟨products, ProductForm.goToNextPage currentPage (ProductForm.totalPages products)⟩ ∧
    ProductForm.PageInvariant ⟨products, ProductForm.goToPrevPage currentPage⟩ ∧
    (∀ p ∈ getPageNumbers currentPage (ProductForm.totalPages products),
      ProductForm.PageInvariant ⟨products, ProductForm.goToPage p⟩) ∧
    (∀ i : Nat, ProductForm.startIndex currentPage ≤ (i : Int) →
      (i : Int) < ProductForm.endIndex currentPage → i < products.length →
      ProductForm.PageInvariant
        ⟨products.eraseIdx i, ProductForm.handleDelete true true products currentPage⟩) ∧
    (∀ refreshed : List Product,
      ProductForm.PageInvariant ⟨refreshed, ProductForm.handleSubmit true currentPage⟩) := by
  unfold ProductForm.PageInvariant at hinv ⊢
  dsimp only at hinv ⊢
  refine ⟨?_, ?_, ?_, ?_, ?_⟩
  · simp only [ProductForm.goToNextPage]
    split <;> omega
  · simp only [ProductForm.goToPrevPage]
    split <;> omega
  · intro p hp
    left
    exact getPageNumbers_mem _ _ p hp
  · intro i hlo hhi hlen
    have htp := admin_totalPages_eq products
    have htp' := admin_totalPages_eq (products.eraseIdx i)
    rw [List.length_eraseIdx_of_lt hlen] at htp'
    unfold ProductForm.startIndex ProductForm.itemsPerPage at hlo
    unfold ProductForm.endIndex ProductForm.startIndex ProductForm.itemsPerPage at hhi
    have hcp : 1 ≤ currentPage := by omega
    have hcur := admin_currentProducts_eq products currentPage hcp
    have hL : (ProductForm.currentProducts products currentPage).length
        = min 4 (products.length - ((currentPage - 1) * 4).toNat) := by
      rw [hcur, List.length_take, List.length_drop]
    simp only [ProductForm.handleDelete, Bool.not_true, Bool.false_eq_true, if_false, if_true]
    rw [htp', hL]
    rw [htp] at hinv
    split <;> omega
  · intro refreshed
    have htp := admin_totalPages_eq refreshed
    unfold ProductForm.handleSubmit
    rw [if_pos rfl]
    omega

theorem relatedFilter_iff (currentProduct q : Product) :
    ProductDetailPage.relatedFilter currentProduct q = true
      ↔ ProductDetailPage.SharesCategory currentProduct q := by
  unfold ProductDetailPage.relatedFilter ProductDetailPage.SharesCategory
  cases hq : q.categories with
  | none => simp
  | some cats =>
    cases hc : currentProduct.categories with
    | none => simp
    | some cs =>
      simp only [Bool.and_eq_true, List.any_eq_true, List.contains_eq_any_beq, List.mem_map,
        beq_iff_eq, exists_exists_and_eq_and, bne_iff_ne, ne_eq, Option.getD_some]
      exact And.comm

theorem objGet_objSet (o : Api.JsObject) (k v k' : String) :
    Api.objGet (Api.objSet o k v) k' = if k = k' then some v else Api.objGet o k' := by
  induction o with
  | nil => simp [Api.objSet, Api.objGet]
  | cons kv rest ih =>
    obtain ⟨k1, v1⟩ := kv
    unfold Api.objSet
    by_cases h1 : k1 = k
    · subst h1
      simp only [if_true, Api.objGet]
      split <;> rfl
    · simp only [h1, if_false, Api.objGet, ih]
      by_cases h2 : k1 = k'
      · subst h2
        have : ¬ k = k1 := fun e => h1 e.symm
        simp [this]
      · simp [h2]

/-- A key that `source` does not have is left untouched by `{...target, ...source}`. -/
theorem objGet_objSpread_of_none (target source : Api.JsObject) (k : String)
    (h : Api.objGet source k = none) :
    Api.objGet (Api.objSpread target source) k = Api.objGet target k := by
  induction source generalizing target with
  | nil => rfl
  | cons kv rest ih =>
    obtain ⟨k1, v1⟩ := kv
    unfold Api.objGet at h
    by_cases h1 : k1 = k
    · simp [h1] at h
    · simp only [h1, if_false] at h
      show Api.objGet (Api.objSpread (Api.objSet target k1 v1) rest) k = _
      rw [ih _ h, objGet_objSet]
      simp [h1]

/-- A key that `source` has (once) takes the value of `source`. -/
theorem objGet_objSpread_of_some (target source : Api.JsObject) (k v : String)
    (hnodup : (source.map Prod.fst).Nodup) (h : Api.objGet source k = some v) :
    Api.objGet (Api.objSpread target source) k = some v := by
  induction source generalizing target with
  | nil => simp [Api.objGet] at h
  | cons kv rest ih =>
    obtain ⟨k1, v1⟩ := kv
    rw [List.map_cons, List.nodup_cons] at hnodup
    show Api.objGet (Api.objSpread (Api.objSet target k1 v1) rest) k = _
    unfold Api.objGet at h
    by_cases h1 : k1 = k
    · subst h1
      simp only [if_true, Option.some.injEq] at h
      subst h
      have hrest : Api.objGet rest k1 = none := by
        have hk := hnodup.1
        clear ih hnodup
        induction rest with
        | nil => rfl
        | cons kv2 rest2 ih2 =>
          obtain ⟨k2, v2⟩ := kv2
          simp only [List.map_cons, List.mem_cons, not_or] at hk
          unfold Api.objGet
          have : ¬ k2 = k1 := fun e => hk.1 e.symm
          simp only [this, if_false]
          exact ih2 hk.2
      rw [objGet_objSpread_of_none _ _ _ hrest, objGet_objSet]
      simp
    · simp only [h1, if_false] at h
      exact ih _ hnodup.2 h

theorem findProduct_eq_none_iff (products : List Product) (id : String) :
    ProductDetailPage.findProduct products id = none ↔ ∀ p ∈ products, p._id ≠ id := by
  unfold ProductDetailPage.findProduct
  rw [List.find?_eq_none]
  constructor
  · intro h p hp he
    exact h p hp (by simpa using he)
  · intro h p hp he
    exact h p hp (by simpa using he)

theorem findProduct_eq_some_iff (products : List Product) (id : String) (p : Product) :
    ProductDetailPage.findProduct products id = some p ↔
      p._id = id ∧ ∃ pre post, products = pre ++ p :: post ∧ ∀ q ∈ pre, q._id ≠ id := by
  unfold ProductDetailPage.findProduct
  rw [List.find?_eq_some]
  constructor
  · rintro ⟨hp, pre, post, hsplit, hpre⟩
    refine ⟨by simpa using hp, pre, post, hsplit, ?_⟩
    intro q hq he
    have := hpre q hq
    simp [he] at this
  · rintro ⟨hp, pre, post, hsplit, hpre⟩
    refine ⟨by simpa using hp, pre, post, hsplit, ?_⟩
    intro q hq
    have := hpre q hq
    simpa using this

/-- With a category selected, no product passes the filter of the catalog: the
elements of `p.categories` are records, and a record never equals the selected
name. -/
theorem filteredProducts_of_category (products : List Product) (selectedCategory : String)
    (h : selectedCategory ≠ "all") :
    CatalogPage.filteredProducts products selectedCategory = [] := by
  unfold CatalogPage.filteredProducts
  have hne : (selectedCategory == "all") = false := by simpa using h
  simp only [hne, Bool.false_eq_true, if_false]
  rw [List.filter_eq_nil_iff]
  intro p _
  cases p.categories with
  | none => simp
  | some cats =>
    simp [CatalogPage.jsIncludesText, CatalogPage.JsElem.sameAsText]

theorem formData_get_set (prev : ProductForm.FormData) (type : ProductForm.CheckboxType)
    (list : List String) : (prev.set type list).get type = list := by
  cases type <;> rfl

theorem formData_get_set_other (prev : ProductForm.FormData)
    (type other : ProductForm.CheckboxType) (list : List String) (h : other ≠ type) :
    (prev.set type list).get other = prev.get other := by
  cases type <;> cases other <;> first | rfl | exact absurd rfl h

theorem flatten_chunks {α : Type} (xs : List α) (size pages : Nat) :
    ((List.range pages).map (fun (k : Nat) => (xs.drop (k * size)).take size)).flatten
      = xs.take (pages * size) := by
  induction pages with
  | zero => simp
  | succ m ih =>
    rw [List.range_succ, List.map_append, List.flatten_append, ih]
    simp only [List.map_cons, List.map_nil, List.flatten_cons, List.flatten_nil,
      List.append_nil]
    rw [Nat.succ_mul, List.take_add]

theorem loadData_fetched (products : List Product) (id : String)
    (hasLoaded isMounted fetchOk : Bool) :
    (ProductDetailPage.loadData products id hasLoaded isMounted fetchOk).fetched
      = decide ((products.length : Int) = 0) := by
  unfold ProductDetailPage.loadData
  simp only []
  split
  · rename_i h
    simp only [Bool.and_eq_true] at h
    exact h.1.symm
  · split
    · split <;> rfl
    · rfl

/-- After a run of `loadData` that cleared `loading`, the stored product is the
first match in the list the run captured, and the view follows from it. -/
theorem loadData_lookup_captured (products : List Product) (id : String)
    (hasLoaded isMounted fetchOk : Bool)
    (hdone :
      (ProductDetailPage.loadData products id hasLoaded isMounted fetchOk).loadingCleared
        = true) :
    (ProductDetailPage.loadData products id hasLoaded isMounted fetchOk).foundProduct
      = ProductDetailPage.findProduct products id ∧
    (∀ p, ProductDetailPage.findProduct products id = some p ↔
      (p._id = id ∧ ∃ pre post, products = pre ++ p :: post ∧ ∀ q ∈ pre, q._id ≠ id)) ∧
    (ProductDetailPage.render
        (!(ProductDetailPage.loadData products id hasLoaded isMounted fetchOk).loadingCleared)
        (ProductDetailPage.loadData products id hasLoaded isMounted fetchOk).foundProduct
          = .notFound
      ↔ ∀ p ∈ products, p._id ≠ id) ∧
    (∀ p, ProductDetailPage.findProduct products id = some p →
      ProductDetailPage.render
        (!(ProductDetailPage.loadData products id hasLoaded isMounted fetchOk).loadingCleared)
        (ProductDetailPage.loadData products id hasLoaded isMounted fetchOk).foundProduct
          = .detail p) := by
  have hfound :
      (ProductDetailPage.loadData products id hasLoaded isMounted fetchOk).foundProduct
        = ProductDetailPage.findProduct products id := by
    unfold ProductDetailPage.loadData at hdone ⊢
    simp only [] at hdone ⊢
    split at hdone
    · simp at hdone
    · split at hdone
      · rename_i h1 h2
        rw [if_neg h1, if_pos h2]
        split <;> rfl
      · simp at hdone
  rw [hfound, hdone]
  refine ⟨rfl, fun p => findProduct_eq_some_iff products id p, ?_, ?_⟩
  · rw [← findProduct_eq_none_iff]
    unfold ProductDetailPage.render
    cases ProductDetailPage.findProduct products id <;> simp
  · intro p hp
    rw [hp]
    rfl

/-! ## Evaluation checks -/

theorem getPageNumbers_eval_last_page : getPageNumbers 10 10 = [6, 7, 8, 9, 10] := by
  rw [getPageNumbers_eq]; decide

theorem getPageNumbers_eval_past_end : getPageNumbers 10 3 = [1, 2, 3] := by
  rw [getPageNumbers_eq]; decide

theorem getPageNumbers_eval_negative : getPageNumbers (-7) 9 = [1, 2, 3, 4, 5] := by
  rw [getPageNumbers_eq]; decide

theorem apiFetchHeaders_eval_override :
    Api.apiFetchHeaders none ⟨none, some [("Content-Type", "text/plain")], .object []⟩
      = [("Content-Type", "text/plain")] := by
  decide

/-! ## Properties of the specification -/

/-- C1 (page-number window bounds): for every `totalPages ≥ 0` and every integer
`currentPage`, `getPageNumbers` returns at most 5 entries, each between 1 and
`totalPages`; the list is empty when `totalPages = 0`. -/
theorem getPageNumbers_bounds (currentPage totalPages : Int) (h : 0 ≤ totalPages) :
    (getPageNumbers currentPage totalPages).length ≤ 5 ∧
    (∀ p ∈ getPageNumbers currentPage totalPages, 1 ≤ p ∧ p ≤ totalPages) ∧
    (totalPages = 0 → getPageNumbers currentPage totalPages = []) := by
  rw [getPageNumbers_eq]
  refine ⟨?_, ?_, ?_⟩
  · rw [List.length_map, List.length_range]
    split <;> omega
  · intro p hp
    rw [← getPageNumbers_eq] at hp
    exact getPageNumbers_mem _ _ p hp
  · intro h0
    subst h0
    have : ∀ x : Int, (min 0 (max 1 (x - 2) + 4) + 1
          - (if min 0 (max 1 (x - 2) + 4) - max 1 (x - 2) + 1 < 5
              then max 1 (min 0 (max 1 (x - 2) + 4) - 4)
              else max 1 (x - 2))).toNat = 0 := by
      intro x
      split <;> omega
    rw [this]
    rfl

theorem getPageNumbers_bounds_witness :
    (0 : Int) ≤ 3 ∧ ((getPageNumbers 10 3).length ≤ 5 ∧
      (∀ p ∈ getPageNumbers 10 3, 1 ≤ p ∧ p ≤ 3) ∧
      ((3 : Int) = 0 → getPageNumbers 10 3 = [])) :=
  ⟨by decide, getPageNumbers_bounds 10 3 (by decide)⟩

/-- C2 (page-number window shape): for `1 ≤ currentPage ≤ totalPages` the window
is the run of `min 5 totalPages` consecutive integers that starts at
`max 1 (min (currentPage - 2) (totalPages - 4))`; it contains `currentPage`, and
it is `[currentPage - 2, …, currentPage + 2]` when `3 ≤ currentPage ≤ totalPages - 2`. -/
theorem getPageNumbers_shape (currentPage totalPages : Int)
    (hlo : 1 ≤ currentPage) (hhi : currentPage ≤ totalPages) :
    getPageNumbers currentPage totalPages
        = (List.range (min 5 totalPages).toNat).map
            (fun (k : Nat) => max 1 (min (currentPage - 2) (totalPages - 4)) + (k : Int)) ∧
    ((getPageNumbers currentPage totalPages).length : Int) = min 5 totalPages ∧
    currentPage ∈ getPageNumbers currentPage totalPages ∧
    (3 ≤ currentPage → currentPage ≤ totalPages - 2 →
      getPageNumbers currentPage totalPages
        = [currentPage - 2, currentPage - 1, currentPage, currentPage + 1, currentPage + 2]) := by
  have hstart : (if min totalPages (max 1 (currentPage - 2) + 4) - max 1 (currentPage - 2) + 1 < 5
              then max 1 (min totalPages (max 1 (currentPage - 2) + 4) - 4)
              else max 1 (currentPage - 2))
      = max 1 (min (currentPage - 2) (totalPages - 4)) := by
    split <;> omega
  have hcount : (min totalPages (max 1 (currentPage - 2) + 4) + 1
      - max 1 (min (currentPage - 2) (totalPages - 4))).toNat = (min 5 totalPages).toNat := by
    omega
  have hshape : getPageNumbers currentPage totalPages
        = (List.range (min 5 totalPages).toNat).map
            (fun (k : Nat) => max 1 (min (currentPage - 2) (totalPages - 4)) + (k : Int)) := by
    rw [getPageNumbers_eq]
    simp only [hstart, hcount]
  refine ⟨hshape, ?_, ?_, ?_⟩
  · rw [hshape, List.length_map, List.length_range]
    omega
  · rw [hshape, List.mem_map]
    refine ⟨(currentPage - max 1 (min (currentPage - 2) (totalPages - 4))).toNat, ?_, ?_⟩
    · rw [List.mem_range]
      omega
    · omega
  · intro h3 h4
    rw [hshape]
    have e1 : (min 5 totalPages).toNat = 5 := by omega
    have e2 : max 1 (min (currentPage - 2) (totalPages - 4)) = currentPage - 2 := by omega
    rw [e1, e2]
    simp only [List.range_succ, List.range_zero, List.nil_append, List.cons_append,
      List.map_cons, List.map_nil]
    have a0 : currentPage - 2 + ((0 : Nat) : Int) = currentPage - 2 := by omega
    have a1 : currentPage - 2 + ((1 : Nat) : Int) = currentPage - 1 := by omega
    have a2 : currentPage - 2 + ((2 : Nat) : Int) = currentPage := by omega
    have a3 : currentPage - 2 + ((3 : Nat) : Int) = currentPage + 1 := by omega
    have a4 : currentPage - 2 + ((4 : Nat) : Int) = currentPage + 2 := by omega
    rw [a0, a1, a2, a3, a4]

theorem getPageNumbers_shape_witness :
    ((1 : Int) ≤ 9 ∧ (9 : Int) ≤ 10) ∧
    (getPageNumbers 9 10
        = (List.range (min 5 (10 : Int)).toNat).map
            (fun (k : Nat) => max 1 (min ((9 : Int) - 2) (10 - 4)) + (k : Int)) ∧
    ((getPageNumbers 9 10).length : Int) = min 5 10 ∧
    (9 : Int) ∈ getPageNumbers 9 10 ∧
    ((3 : Int) ≤ 9 → (9 : Int) ≤ 10 - 2 →
      getPageNumbers 9 10 = [9 - 2, 9 - 1, 9, 9 + 1, 9 + 2])) :=
  ⟨by decide, getPageNumbers_shape 9 10 (by decide) (by decide)⟩


/-- C3 on the code: the current-page invariant is not kept. With 6 products on
page 2, two deletes clicked in the same render both see a slice of 2 items, so
neither steps back, and the refreshed list has 4 products on 1 page while
`currentPage` is 2. With 5 products on page 1, a delete followed by "next"
before the list is refreshed ends in the same way. -/
theorem currentPage_invariant_fails :
    (ProductForm.AdminReachable
        ⟨sampleProducts.take 4, sampleProducts.take 4, 2, [], 0⟩ ∧
      ProductForm.totalPages (sampleProducts.take 4) = 1 ∧
      ¬ ProductForm.PageInvariant ⟨sampleProducts.take 4, 2⟩) ∧
    (ProductForm.AdminReachable
        ⟨(sampleProducts.take 5).drop 1, (sampleProducts.take 5).drop 1, 2, [], 0⟩ ∧
      ProductForm.totalPages ((sampleProducts.take 5).drop 1) = 1 ∧
      ¬ ProductForm.PageInvariant ⟨(sampleProducts.take 5).drop 1, 2⟩) := by
  have hnext6 : ProductForm.goToNextPage 1 (ProductForm.totalPages (sampleProducts.take 6))
      = 2 := by
    rw [admin_totalPages_eq]
    decide
  have hnext5 : ProductForm.goToNextPage 1 (ProductForm.totalPages (sampleProducts.take 5))
      = 2 := by
    rw [admin_totalPages_eq]
    decide
  have hpages4 : ProductForm.totalPages (sampleProducts.take 4) = 1 := by
    rw [admin_totalPages_eq]
    decide
  have hpages4b : ProductForm.totalPages ((sampleProducts.take 5).drop 1) = 1 := by
    rw [admin_totalPages_eq]
    decide
  refine ⟨⟨?_, hpages4, ?_⟩, ⟨?_, hpages4b, ?_⟩⟩
  · -- page 2 of 6 products, two deletes from the same render
    have h0 := ProductForm.AdminReachable.init (sampleProducts.take 6)
    have h1 : ProductForm.AdminReachable
        ⟨sampleProducts.take 6, sampleProducts.take 6, 2, [], 0⟩ := by
      have h := ProductForm.AdminReachable.step h0 (ProductForm.AdminStep.next _)
      dsimp only at h
      rw [hnext6] at h
      exact h
    have h2 : ProductForm.AdminReachable
        ⟨sampleProducts.take 6, sampleProducts.take 6, 2,
          [⟨"p5", sampleProducts.take 6, 2⟩], 0⟩ :=
      ProductForm.AdminReachable.step h1
        (ProductForm.AdminStep.deleteClick _ 4 (mkProduct "p5" ["a"])
          (by decide) (by decide) (by decide))
    have h3 : ProductForm.AdminReachable
        ⟨sampleProducts.take 6, sampleProducts.take 6, 2,
          [⟨"p6", sampleProducts.take 6, 2⟩, ⟨"p5", sampleProducts.take 6, 2⟩], 0⟩ :=
      ProductForm.AdminReachable.step h2
        (ProductForm.AdminStep.deleteClick _ 5 (mkProduct "p6" ["c"])
          (by decide) (by decide) (by decide))
    have h4 : ProductForm.AdminReachable
        ⟨(sampleProducts.take 6).filter (fun p => p._id != "p5"), sampleProducts.take 6, 2,
          [⟨"p6", sampleProducts.take 6, 2⟩], 1⟩ :=
      ProductForm.AdminReachable.step h3
        (ProductForm.AdminStep.deleteResolve _ ⟨"p5", sampleProducts.take 6, 2⟩
          (by decide) ⟨mkProduct "p5" ["a"], by decide, rfl⟩)
    have h5 : ProductForm.AdminReachable
        ⟨sampleProducts.take 4, sampleProducts.take 6, 2, [], 2⟩ :=
      ProductForm.AdminReachable.step h4
        (ProductForm.AdminStep.deleteResolve _ ⟨"p6", sampleProducts.take 6, 2⟩
          (by decide) ⟨mkProduct "p6" ["c"], by decide, rfl⟩)
    have h6 : ProductForm.AdminReachable
        ⟨sampleProducts.take 4, sampleProducts.take 4, 2, [], 1⟩ :=
      ProductForm.AdminReachable.step h5 (ProductForm.AdminStep.fetchResolve _ (by decide))
    exact ProductForm.AdminReachable.step h6 (ProductForm.AdminStep.fetchResolve _ (by decide))
  · intro hinv
    unfold ProductForm.PageInvariant at hinv
    dsimp only at hinv
    rw [hpages4] at hinv
    omega
  · -- page 1 of 5 products, a delete and then "next" before the refresh
    have h0 := ProductForm.AdminReachable.init (sampleProducts.take 5)
    have h1 : ProductForm.AdminReachable
        ⟨sampleProducts.take 5, sampleProducts.take 5, 1,
          [⟨"p1", sampleProducts.take 5, 1⟩], 0⟩ :=
      ProductForm.AdminReachable.step h0
        (ProductForm.AdminStep.deleteClick _ 0 (mkProduct "p1" ["a"])
          (by decide) (by decide) (by decide))
    have h2 : ProductForm.AdminReachable
        ⟨(sampleProducts.take 5).drop 1, sampleProducts.take 5, 1, [], 1⟩ :=
      ProductForm.AdminReachable.step h1
        (ProductForm.AdminStep.deleteResolve _ ⟨"p1", sampleProducts.take 5, 1⟩
          (by decide) ⟨mkProduct "p1" ["a"], by decide, rfl⟩)
    have h3 : ProductForm.AdminReachable
        ⟨(sampleProducts.take 5).drop 1, sampleProducts.take 5, 2, [], 1⟩ := by
      have h := ProductForm.AdminReachable.step h2 (ProductForm.AdminStep.next _)
      dsimp only at h
      rw [hnext5] at h
      exact h
    exact ProductForm.AdminReachable.step h3 (ProductForm.AdminStep.fetchResolve _ (by decide))
  · intro hinv
    unfold ProductForm.PageInvariant at hinv
    dsimp only at hinv
    rw [hpages4b] at hinv
    omega

/-- C5 (total pages): the admin view computes `⌈n / 4⌉` and the catalog view
`⌈n / 12⌉` for a collection of `n` items; the value is `0` exactly when `n = 0`
and it is the least `k` with `k * pageSize ≥ n`. -/
theorem totalPages_ceil (products filteredProducts : List Product) :
    (ProductForm.totalPages products = ⌈(products.length : ℚ) / 4⌉ ∧
      (ProductForm.totalPages products = 0 ↔ products.length = 0) ∧
      IsLeast {k : Int | (products.length : Int) ≤ k * 4} (ProductForm.totalPages products)) ∧
    (CatalogPage.totalPages filteredProducts = ⌈(filteredProducts.length : ℚ) / 12⌉ ∧
      (CatalogPage.totalPages filteredProducts = 0 ↔ filteredProducts.length = 0) ∧
      IsLeast {k : Int | (filteredProducts.length : Int) ≤ k * 12}
        (CatalogPage.totalPages filteredProducts)) := by
  refine ⟨⟨?_, ?_, ?_⟩, ⟨?_, ?_, ?_⟩⟩
  · unfold ProductForm.totalPages ProductForm.totalProducts ProductForm.itemsPerPage mathCeilDiv
    push_cast
    rfl
  · rw [admin_totalPages_eq]
    omega
  · exact mathCeilDiv_isLeast _ 4 (by decide)
  · unfold CatalogPage.totalPages CatalogPage.productsPerPage mathCeilDiv
    push_cast
    rfl
  · rw [catalog_totalPages_eq]
    omega
  · exact mathCeilDiv_isLeast _ 12 (by decide)

/-- C4 (admin grid padding): for `currentPage ≥ 1` the admin grid has exactly 4
entries: the items of the current page's slice, in collection order, followed
only by `null` placeholders; no placeholder precedes a real item, and an empty
slice gives 4 placeholders. -/
theorem displayedProducts_padding (products : List Product) (currentPage : Int)
    (h : 1 ≤ currentPage) :
    (ProductForm.displayedProducts products currentPage).length = 4 ∧
    ProductForm.displayedProducts products currentPage
      = ((products.drop ((currentPage - 1) * 4).toNat).take 4).map some
        ++ List.replicate (4 - ((products.drop ((currentPage - 1) * 4).toNat).take 4).length)
            none ∧
    ProductForm.currentProducts products currentPage
      = (products.drop ((currentPage - 1) * 4).toNat).take 4 ∧
    (∀ (i j : Nat) (x : Product), i < j →
      (ProductForm.displayedProducts products currentPage)[j]? = some (some x) →
      ∃ y, (ProductForm.displayedProducts products currentPage)[i]? = some (some y)) ∧
    (ProductForm.currentProducts products currentPage = [] →
      ProductForm.displayedProducts products currentPage = [none, none, none, none]) := by
  have hcur := admin_currentProducts_eq products currentPage h
  have hdisp := admin_displayedProducts_eq products currentPage
  rw [hcur] at hdisp
  have hlen : ((products.drop ((currentPage - 1) * 4).toNat).take 4).length ≤ 4 := by
    rw [List.length_take]
    omega
  refine ⟨?_, hdisp, hcur, ?_, ?_⟩
  · rw [hdisp, List.length_append, List.length_map, List.length_replicate]
    omega
  · intro i j x hij hj
    rw [hdisp] at hj ⊢
    generalize (products.drop ((currentPage - 1) * 4).toNat).take 4 = cur at hj ⊢
    by_cases hjl : j < (cur.map some).length
    · have hil : i < cur.length := by
        rw [List.length_map] at hjl
        omega
      refine ⟨cur[i], ?_⟩
      rw [List.getElem?_append_left (by rw [List.length_map]; exact hil)]
      rw [List.getElem?_map, List.getElem?_eq_getElem hil]
      rfl
    · rw [List.getElem?_append_right (by omega)] at hj
      rw [List.getElem?_replicate] at hj
      split at hj <;> simp at hj
  · intro hnil
    rw [admin_displayedProducts_eq, hnil]
    rfl

theorem displayedProducts_padding_witness :
    (1 : Int) ≤ 3 ∧
    ProductForm.displayedProducts sampleProducts 3
      = [some (mkProduct "p9" ["b"]), some (mkProduct "p10" ["a"]), none, none] :=
  ⟨by decide, (displayedProducts_padding sampleProducts 3 (by decide)).2.1⟩


/-- C6 (page slice): for page size `s` (4 in the admin view, 12 in the catalog)
and `currentPage = p ≥ 1`, the displayed slice consists of the items at the
0-based indices `i` with `(p - 1) * s ≤ i < min (p * s) n`, in collection order;
with 10 items the admin view has 3 pages, page 1 shows items 1-4 and page 3
shows items 9-10 followed by 2 placeholders. -/
theorem currentProducts_slice (products filteredProducts : List Product) (p : Int)
    (hp : 1 ≤ p) :
    ((((ProductForm.currentProducts products p).length : Int)
        = max 0 (min (p * 4) (products.length : Int) - (p - 1) * 4)) ∧
      ∀ i : Nat, (p - 1) * 4 ≤ (i : Int) → (i : Int) < min (p * 4) (products.length : Int) →
        (ProductForm.currentProducts products p)[((i : Int) - (p - 1) * 4).toNat]?
          = products[i]?) ∧
    ((((CatalogPage.currentProducts filteredProducts p).length : Int)
        = max 0 (min (p * 12) (filteredProducts.length : Int) - (p - 1) * 12)) ∧
      ∀ i : Nat, (p - 1) * 12 ≤ (i : Int) →
        (i : Int) < min (p * 12) (filteredProducts.length : Int) →
        (CatalogPage.currentProducts filteredProducts p)[((i : Int) - (p - 1) * 12).toNat]?
          = filteredProducts[i]?) ∧
    (products.length = 10 →
      ProductForm.totalPages products = 3 ∧
      ProductForm.currentProducts products 1 = products.take 4 ∧
      (ProductForm.currentProducts products 1).length = 4 ∧
      ProductForm.currentProducts products 3 = products.drop 8 ∧
      (ProductForm.currentProducts products 3).length = 2 ∧
      ProductForm.displayedProducts products 3
        = (products.drop 8).map some ++ [none, none]) := by
  refine ⟨⟨?_, ?_⟩, ⟨?_, ?_⟩, ?_⟩
  · rw [admin_currentProducts_eq products p hp, List.length_take, List.length_drop]
    omega
  · intro i hlo hhi
    rw [admin_currentProducts_eq products p hp,
      List.getElem?_take_of_lt (by omega), List.getElem?_drop]
    congr 1
    omega
  · rw [catalog_currentProducts_eq filteredProducts p hp, List.length_take,
      List.length_drop]
    omega
  · intro i hlo hhi
    rw [catalog_currentProducts_eq filteredProducts p hp,
      List.getElem?_take_of_lt (by omega), List.getElem?_drop]
    congr 1
    omega
  · intro hlen
    have h1 : ProductForm.currentProducts products 1 = products.take 4 := by
      rw [admin_currentProducts_eq products 1 (by decide)]
      rfl
    have h3 : ProductForm.currentProducts products 3 = products.drop 8 := by
      rw [admin_currentProducts_eq products 3 (by decide)]
      have : ((3 - 1) * 4 : Int).toNat = 8 := by decide
      rw [this]
      apply List.take_of_length_le
      rw [List.length_drop]
      omega
    have hl3 : (products.drop 8).length = 2 := by
      rw [List.length_drop]
      omega
    refine ⟨?_, h1, ?_, h3, ?_, ?_⟩
    · rw [admin_totalPages_eq, hlen]
      decide
    · rw [h1, List.length_take]
      omega
    · rw [h3, hl3]
    · rw [admin_displayedProducts_eq, h3, hl3]
      rfl

theorem currentProducts_slice_witness :
    (1 : Int) ≤ 3 ∧ sampleProducts.length = 10 ∧
    ProductForm.totalPages sampleProducts = 3 ∧
    ProductForm.currentProducts sampleProducts 1 = sampleProducts.take 4 ∧
    (ProductForm.currentProducts sampleProducts 1).length = 4 ∧
    ProductForm.currentProducts sampleProducts 3 = sampleProducts.drop 8 ∧
    (ProductForm.currentProducts sampleProducts 3).length = 2 ∧
    ProductForm.displayedProducts sampleProducts 3
      = (sampleProducts.drop 8).map some ++ [none, none] :=
  ⟨by decide, rfl, (currentProducts_slice sampleProducts sampleProducts 3 (by decide)).2.2 rfl⟩

/-- C7 (delete step-back): after a confirmed and successful delete the page
becomes `currentPage - 1` exactly when the current slice held a single item and
`currentPage > 1`; otherwise it is unchanged, in particular when the only item
of page 1 is deleted. An unconfirmed or failed delete never changes the page. -/
theorem handleDelete_step_back (products : List Product) (currentPage : Int) :
    (ProductForm.handleDelete true true products currentPage = currentPage - 1 ↔
      ((ProductForm.currentProducts products currentPage).length = 1 ∧ currentPage > 1)) ∧
    (¬ ((ProductForm.currentProducts products currentPage).length = 1 ∧ currentPage > 1) →
      ProductForm.handleDelete true true products currentPage = currentPage) ∧
    (currentPage = 1 → ProductForm.handleDelete true true products currentPage = 1) ∧
    (∀ deleteOk, ProductForm.handleDelete false deleteOk products currentPage = currentPage) ∧
    ProductForm.handleDelete true false products currentPage = currentPage := by
  unfold ProductForm.handleDelete
  simp only [Bool.not_true, Bool.not_false, Bool.false_eq_true, if_true, if_false]
  refine ⟨?_, ?_, ?_, ?_, ?_⟩
  · split
    · rename_i hc
      constructor
      · intro _
        exact ⟨by exact_mod_cast hc.1, hc.2⟩
      · intro _
        trivial
    · rename_i hc
      constructor
      · intro he
        omega
      · intro hc2
        exact absurd ⟨by exact_mod_cast hc2.1, hc2.2⟩ hc
  · intro hn
    rw [if_neg]
    intro hc
    exact hn ⟨by exact_mod_cast hc.1, hc.2⟩
  · intro h1
    rw [if_neg]
    · exact h1
    · omega
  · trivial
  · trivial

theorem handleDelete_step_back_witness :
    ProductForm.handleDelete true true (sampleProducts.take 9) 3 = 2 ∧
    ProductForm.handleDelete true true sampleProducts 3 = 3 ∧
    ProductForm.handleDelete true true (sampleProducts.take 1) 1 = 1 :=
  ⟨by
      have h := (handleDelete_step_back (sampleProducts.take 9) 3).1.mpr ⟨rfl, by decide⟩
      simpa using h,
    (handleDelete_step_back sampleProducts 3).2.1 (by decide),
    (handleDelete_step_back (sampleProducts.take 1) 1).2.2.1 rfl⟩

/-- C8 (navigation guards): `goToPrevPage` keeps page 1 and otherwise goes to
`currentPage - 1`; `goToNextPage` keeps the last page and goes to
`currentPage + 1` below it; "previous" is disabled iff `currentPage = 1` and
"next" iff `currentPage = totalPages`, in the admin list and in the catalog. -/
theorem navigation_guards (currentPage totalPages : Int) :
    ((currentPage = 1 → ProductForm.goToPrevPage currentPage = currentPage) ∧
      (1 < currentPage → ProductForm.goToPrevPage currentPage = currentPage - 1) ∧
      (currentPage = totalPages →
        ProductForm.goToNextPage currentPage totalPages = currentPage) ∧
      (currentPage < totalPages →
        ProductForm.goToNextPage currentPage totalPages = currentPage + 1) ∧
      (ProductForm.prevDisabled currentPage = true ↔ currentPage = 1) ∧
      (ProductForm.nextDisabled currentPage totalPages = true ↔ currentPage = totalPages)) ∧
    ((currentPage = 1 → CatalogPage.goToPrevPage currentPage = currentPage) ∧
      (1 < currentPage → CatalogPage.goToPrevPage currentPage = currentPage - 1) ∧
      (currentPage = totalPages →
        CatalogPage.goToNextPage currentPage totalPages = currentPage) ∧
      (currentPage < totalPages →
        CatalogPage.goToNextPage currentPage totalPages = currentPage + 1) ∧
      (CatalogPage.prevDisabled currentPage = true ↔ currentPage = 1) ∧
      (CatalogPage.nextDisabled currentPage totalPages = true ↔ currentPage = totalPages)) := by
  unfold ProductForm.goToPrevPage ProductForm.goToNextPage ProductForm.prevDisabled
    ProductForm.nextDisabled CatalogPage.goToPrevPage CatalogPage.goToNextPage
    CatalogPage.prevDisabled CatalogPage.nextDisabled
  refine ⟨⟨?_, ?_, ?_, ?_, ?_, ?_⟩, ⟨?_, ?_, ?_, ?_, ?_, ?_⟩⟩ <;>
    first
    | exact beq_iff_eq
    | (intro h; split <;> omega)

theorem navigation_guards_witness :
    ProductForm.goToPrevPage 2 = 2 - 1 ∧ ProductForm.goToNextPage 2 3 = 2 + 1 ∧
    ProductForm.goToPrevPage 1 = 1 ∧ CatalogPage.goToNextPage 3 3 = 3 :=
  ⟨(navigation_guards 2 3).1.2.1 (by decide), (navigation_guards 2 3).1.2.2.2.1 (by decide),
    (navigation_guards 1 3).1.1 rfl, (navigation_guards 3 3).2.2.2.1 rfl⟩


/-- C9 (related products): the rendered list is the first at most 4 products, in
collection order, among those that are not the current product and share a
category identifier with it; it never contains a product with the current
product's identifier, never has more than 4 entries, and is empty when the
current product has no categories. -/
theorem relatedProducts_selection (products : List Product) (currentProduct : Product) :
    ProductDetailPage.relatedProducts products currentProduct
      = (products.filter
          (fun q => decide (ProductDetailPage.SharesCategory currentProduct q))).take 4 ∧
    (∀ q ∈ ProductDetailPage.relatedProducts products currentProduct,
      q._id ≠ currentProduct._id) ∧
    (ProductDetailPage.relatedProducts products currentProduct).length ≤ 4 ∧
    (currentProduct.categories.getD [] = [] →
      ProductDetailPage.relatedProducts products currentProduct = []) := by
  have hfilter : ProductDetailPage.relatedFilter currentProduct
      = fun q => decide (ProductDetailPage.SharesCategory currentProduct q) := by
    funext q
    rw [Bool.eq_iff_iff, relatedFilter_iff, decide_eq_true_iff]
  have hshape : ProductDetailPage.relatedProducts products currentProduct
      = (products.filter
          (fun q => decide (ProductDetailPage.SharesCategory currentProduct q))).take 4 := by
    unfold ProductDetailPage.relatedProducts
    rw [jsSlice_of_nonneg _ 0 4 (by decide) (by decide), hfilter]
    rfl
  refine ⟨hshape, ?_, ?_, ?_⟩
  · intro q hq
    rw [hshape] at hq
    have hq2 := List.mem_filter.mp (List.mem_of_mem_take hq)
    exact (of_decide_eq_true hq2.2).1
  · rw [hshape, List.length_take]
    omega
  · intro hnone
    rw [hshape]
    have : products.filter
        (fun q => decide (ProductDetailPage.SharesCategory currentProduct q)) = [] := by
      rw [List.filter_eq_nil_iff]
      intro q _ hq
      have hs := of_decide_eq_true hq
      obtain ⟨_, cq, _, cp, hcp, _⟩ := hs
      rw [hnone] at hcp
      exact absurd hcp (List.not_mem_nil cp)
    rw [this]
    rfl

theorem relatedProducts_selection_witness :
    (mkProduct "p4" []).categories.getD [] = [] ∧
    ProductDetailPage.relatedProducts sampleProducts (mkProduct "p4" []) = [] :=
  ⟨rfl, (relatedProducts_selection sampleProducts (mkProduct "p4" [])).2.2.2 rfl⟩

/-- C10, as stated, fails: a caller-supplied `Content-Type` header is spread
after the default, so a JSON body can go out with another content type and a
`FormData` body can go out with a `Content-Type` entry. -/
theorem apiFetch_contentType_counterexample :
    (Api.JsValue.object [("name", "x")]).isFormData = false ∧
    Api.objGet
        (Api.apiFetchHeaders none
          ⟨some "POST", some [("Content-Type", "text/plain")], .object [("name", "x")]⟩)
        "Content-Type" = some "text/plain" ∧
    (Api.JsValue.formData [("name", "x")]).isFormData = true ∧
    Api.objGet
        (Api.apiFetchHeaders none
          ⟨some "POST", some [("Content-Type", "text/plain")], .formData [("name", "x")]⟩)
        "Content-Type" = some "text/plain" := by
  decide

/-- C10 (amended): when the caller-supplied `options.headers` has no
`Content-Type` entry, a body that is not a `FormData` is sent with
`Content-Type: application/json` and a `FormData` body with no `Content-Type`
entry at all; a `Content-Type` entry that the caller supplies is sent as it is,
whatever the body. -/
theorem apiFetch_contentType (token : Option String) (options : Api.Options) :
    (Api.objGet (options.headers.getD []) "Content-Type" = none →
      (options.body.isFormData = false →
        Api.objGet (Api.apiFetchHeaders token options) "Content-Type"
          = some "application/json") ∧
      (options.body.isFormData = true →
        Api.objGet (Api.apiFetchHeaders token options) "Content-Type" = none)) ∧
    (∀ v, ((options.headers.getD []).map Prod.fst).Nodup →
      Api.objGet (options.headers.getD []) "Content-Type" = some v →
      Api.objGet (Api.apiFetchHeaders token options) "Content-Type" = some v) := by
  have htoken : Api.objGet
      (if Api.tokenTruthy token = true then [("Authorization", "Bearer " ++ token.getD "")]
        else []) "Content-Type" = none := by
    split
    · unfold Api.objGet
      rw [if_neg (by decide)]
      rfl
    · rfl
  unfold Api.apiFetchHeaders
  simp only []
  rw [objGet_objSpread_of_none _ _ _ htoken]
  refine ⟨?_, ?_⟩
  · intro hnone
    rw [objGet_objSpread_of_none _ _ _ hnone]
    constructor
    · intro hb
      rw [hb]
      rfl
    · intro hb
      rw [hb]
      rfl
  · intro v hnodup hv
    exact objGet_objSpread_of_some _ _ _ _ hnodup hv

theorem apiFetch_contentType_witness :
    Api.objGet
        (Api.apiFetchHeaders (some "t0k3n") ⟨some "POST", none, .object [("name", "x")]⟩)
        "Content-Type" = some "application/json" ∧
    Api.objGet
        (Api.apiFetchHeaders (some "t0k3n")
          ⟨some "POST", some [("Accept", "*/*")], .formData [("name", "x")]⟩)
        "Content-Type" = none ∧
    Api.objGet
        (Api.apiFetchHeaders (some "t0k3n")
          ⟨some "POST", some [("Content-Type", "text/plain")], .formData [("name", "x")]⟩)
        "Content-Type" = some "text/plain" :=
  ⟨((apiFetch_contentType (some "t0k3n") ⟨some "POST", none, .object [("name", "x")]⟩).1
      rfl).1 rfl,
    ((apiFetch_contentType (some "t0k3n")
      ⟨some "POST", some [("Accept", "*/*")], .formData [("name", "x")]⟩).1 (by decide)).2 rfl,
    (apiFetch_contentType (some "t0k3n")
      ⟨some "POST", some [("Content-Type", "text/plain")], .formData [("name", "x")]⟩).2
      "text/plain" (by decide) (by decide)⟩


/-- C11, as stated, fails: the falsy bodies `0`, `false`, the empty string and
`null` are not `FormData`, `JSON.stringify` turns each into a string, and
`apiFetch` sends no body (`undefined`) for them. -/
theorem apiFetch_body_counterexample :
    ((Api.JsValue.number 0).isFormData = false ∧
      Api.jsonStringify (.number 0) = .string "0" ∧
      Api.apiFetchBody ⟨some "POST", none, .number 0⟩ = .undefined) ∧
    (Api.jsonStringify (.bool false) = .string "false" ∧
      Api.apiFetchBody ⟨some "POST", none, .bool false⟩ = .undefined) ∧
    (Api.jsonStringify (.string "") = .string (String.mk [Char.ofNat 34, Char.ofNat 34]) ∧
      Api.apiFetchBody ⟨some "POST", none, .string ""⟩ = .undefined) ∧
    (Api.jsonStringify .null = .string "null" ∧
      Api.apiFetchBody ⟨some "POST", none, .null⟩ = .undefined) := by
  decide

/-- C11 (amended): a body that is not a `FormData` and is truthy is sent as
`JSON.stringify(options.body)`; a falsy body (`undefined`, `null`, `false`, `0`,
the empty string) is sent as no body at all; a `FormData` body is passed through
unchanged. -/
theorem apiFetch_body (options : Api.Options) :
    (options.body.isFormData = false → options.body.truthy = true →
      Api.apiFetchBody options = Api.jsonStringify options.body) ∧
    (options.body.isFormData = false → options.body.truthy = false →
      Api.apiFetchBody options = .undefined) ∧
    (options.body.isFormData = true → Api.apiFetchBody options = options.body) ∧
    (options.body.truthy = false ↔
      options.body = .undefined ∨ options.body = .null ∨ options.body = .bool false ∨
        options.body = .number 0 ∨ options.body = .string "") := by
  refine ⟨?_, ?_, ?_, ?_⟩
  · intro hform htruthy
    unfold Api.apiFetchBody
    simp only [hform, htruthy, Bool.false_eq_true, if_false, if_true]
  · intro hform hfalsy
    unfold Api.apiFetchBody
    simp only [hform, hfalsy, Bool.false_eq_true, if_false]
  · intro hform
    unfold Api.apiFetchBody
    simp only [hform, if_true]
  · cases hbody : options.body with
    | undefined => simp [Api.JsValue.truthy]
    | null => simp [Api.JsValue.truthy]
    | bool b => cases b <;> simp [Api.JsValue.truthy]
    | number n => simp [Api.JsValue.truthy]
    | string str => simp [Api.JsValue.truthy]
    | object fields => simp [Api.JsValue.truthy]
    | formData entries => simp [Api.JsValue.truthy]

theorem apiFetch_body_witness :
    Api.apiFetchBody ⟨some "POST", none, .object [("name", "x")]⟩
      = Api.jsonStringify (.object [("name", "x")]) ∧
    Api.apiFetchBody ⟨some "DELETE", none, .undefined⟩ = .undefined ∧
    Api.apiFetchBody ⟨some "POST", none, .formData [("name", "x")]⟩
      = .formData [("name", "x")] :=
  ⟨(apiFetch_body ⟨some "POST", none, .object [("name", "x")]⟩).1 rfl rfl,
    (apiFetch_body ⟨some "DELETE", none, .undefined⟩).2.1 rfl rfl,
    (apiFetch_body ⟨some "POST", none, .formData [("name", "x")]⟩).2.2.1 rfl⟩

/-- C12, as stated, fails: with the empty string stored under `adminToken` a
token is present in local storage, and `apiFetch` sends no `Authorization`
header (the claim asks for `Bearer ` followed by the stored value). -/
theorem apiFetch_token_counterexample :
    Api.getToken [("adminToken", "")] = some "" ∧
    Api.objGet
        (Api.apiFetchHeaders (Api.getToken [("adminToken", "")])
          ⟨some "DELETE", none, .undefined⟩)
        "Authorization" = none := by
  decide

/-- C12 (amended): the request carries `Authorization: Bearer <token>` with the
value stored under `adminToken` whenever that value is a non-empty string, and
then it takes precedence over an `Authorization` entry of the caller; when
nothing or the empty string is stored, `apiFetch` adds no `Authorization`
header of its own: the header is absent, or is the caller's own entry. -/
theorem apiFetch_token (localStorage : Api.JsObject) (options : Api.Options) :
    (∀ token, Api.getToken localStorage = some token → token ≠ "" →
      Api.objGet (Api.apiFetchHeaders (Api.getToken localStorage) options) "Authorization"
        = some ("Bearer " ++ token)) ∧
    ((Api.getToken localStorage = none ∨ Api.getToken localStorage = some "") →
      (Api.objGet (options.headers.getD []) "Authorization" = none →
        Api.objGet (Api.apiFetchHeaders (Api.getToken localStorage) options) "Authorization"
          = none) ∧
      (∀ v, ((options.headers.getD []).map Prod.fst).Nodup →
        Api.objGet (options.headers.getD []) "Authorization" = some v →
        Api.objGet (Api.apiFetchHeaders (Api.getToken localStorage) options) "Authorization"
          = some v)) := by
  refine ⟨?_, ?_⟩
  · intro token htoken hne
    rw [htoken]
    unfold Api.apiFetchHeaders
    have htruthy : Api.tokenTruthy (some token) = true := by
      simp [Api.tokenTruthy, hne]
    simp only [htruthy, if_true, Option.getD_some]
    apply objGet_objSpread_of_some
    · simp
    · simp [Api.objGet]
  · intro hnone
    have hfalsy : Api.tokenTruthy (Api.getToken localStorage) = false := by
      rcases hnone with h | h <;> rw [h] <;> rfl
    unfold Api.apiFetchHeaders
    simp only [hfalsy, Bool.false_eq_true, if_false]
    have hdefault : Api.objGet
        (Api.objSpread []
          (if options.body.isFormData = true then []
            else [("Content-Type", "application/json")])) "Authorization" = none := by
      split
      · rfl
      · decide
    refine ⟨?_, ?_⟩
    · intro hcaller
      show Api.objGet (Api.objSpread _ (options.headers.getD [])) "Authorization" = none
      rw [objGet_objSpread_of_none _ _ _ hcaller]
      exact hdefault
    · intro v hnodup hcaller
      show Api.objGet (Api.objSpread _ (options.headers.getD [])) "Authorization" = some v
      exact objGet_objSpread_of_some _ _ _ _ hnodup hcaller

theorem apiFetch_token_witness :
    Api.objGet
        (Api.apiFetchHeaders (Api.getToken [("adminToken", "t0k3n")])
          ⟨some "DELETE", some [("Authorization", "Basic abc")], .undefined⟩)
        "Authorization" = some ("Bearer " ++ "t0k3n") ∧
    Api.objGet
        (Api.apiFetchHeaders (Api.getToken []) ⟨some "DELETE", none, .undefined⟩)
        "Authorization" = none ∧
    Api.objGet
        (Api.apiFetchHeaders (Api.getToken [("adminToken", "")])
          ⟨some "DELETE", some [("Authorization", "Basic abc")], .undefined⟩)
        "Authorization" = some "Basic abc" :=
  ⟨(apiFetch_token [("adminToken", "t0k3n")]
      ⟨some "DELETE", some [("Authorization", "Basic abc")], .undefined⟩).1
      "t0k3n" (by decide) (by decide),
    ((apiFetch_token [] ⟨some "DELETE", none, .undefined⟩).2 (Or.inl rfl)).1 rfl,
    ((apiFetch_token [("adminToken", "")]
      ⟨some "DELETE", some [("Authorization", "Basic abc")], .undefined⟩).2
      (Or.inr (by decide))).2 "Basic abc" (by decide) (by decide)⟩

/-- C13 (apiFetch outcome): with the response given as `ok`, `status`, text and
JSON-parse result, `apiFetch` fails iff `ok` is false, and then the message is
`Error <status>: <text>`; on a success response it returns the parsed value
when the body parses and `null` when it does not, and never fails. -/
theorem apiFetch_outcome {α : Type} (jsNull : α) (res : Api.Response α) :
    ((∃ message, Api.apiFetchResult jsNull res = .error message) ↔ res.ok = false) ∧
    (res.ok = false →
      Api.apiFetchResult jsNull res
        = .error ("Error " ++ toString res.status ++ ": " ++ res.text)) ∧
    (res.ok = true → ∀ value, res.json = some value →
      Api.apiFetchResult jsNull res = .ok value) ∧
    (res.ok = true → res.json = none → Api.apiFetchResult jsNull res = .ok jsNull) := by
  unfold Api.apiFetchResult
  cases hok : res.ok with
  | false =>
    simp
  | true =>
    cases hjson : res.json with
    | none => simp
    | some value => simp

theorem apiFetch_outcome_witness :
    Api.apiFetchResult Api.JsValue.null ⟨false, 404, "Not Found", none⟩
      = .error ("Error " ++ toString 404 ++ ": " ++ "Not Found") ∧
    Api.apiFetchResult Api.JsValue.null ⟨true, 200, "[]", some (Api.JsValue.object [])⟩
      = .ok (Api.JsValue.object []) ∧
    Api.apiFetchResult Api.JsValue.null ⟨true, 204, "", none⟩ = .ok Api.JsValue.null :=
  ⟨(apiFetch_outcome Api.JsValue.null ⟨false, 404, "Not Found", none⟩).2.1 rfl,
    (apiFetch_outcome Api.JsValue.null
      ⟨true, 200, "[]", some (Api.JsValue.object [])⟩).2.2.1 rfl _ rfl,
    (apiFetch_outcome Api.JsValue.null ⟨true, 204, "", none⟩).2.2.2 rfl rfl⟩


/-- C14, as stated, fails: a run of `loadData` that performs a fetch saw an empty
product list, so its lookup finds nothing, and with `hasLoaded` false it still
does not reload, because the reload is guarded by `products.length > 0`. -/
theorem loadData_reload_counterexample :
    (ProductDetailPage.loadData [] "p1" false true true).fetched = true ∧
    ProductDetailPage.findProduct [] "p1" = none ∧
    (ProductDetailPage.loadData [] "p1" false true true).reloaded = false := by
  decide

/-- C14 (amended): a run of `loadData` triggers the full-page reload exactly when
it is still mounted, the product list it sees is not empty, its lookup of the
route id finds no product and `hasLoaded` is false; a run performs a fetch
exactly when the list it sees is empty, so a run that fetches never reloads. -/
theorem loadData_reload (products : List Product) (id : String)
    (hasLoaded isMounted fetchOk : Bool) :
    ((ProductDetailPage.loadData products id hasLoaded isMounted fetchOk).fetched = true
      ↔ products = []) ∧
    ((ProductDetailPage.loadData products id hasLoaded isMounted fetchOk).reloaded = true
      ↔ (isMounted = true ∧ products ≠ [] ∧
          ProductDetailPage.findProduct products id = none ∧ hasLoaded = false)) ∧
    ((ProductDetailPage.loadData products id hasLoaded isMounted fetchOk).fetched = true →
      (ProductDetailPage.loadData products id hasLoaded isMounted fetchOk).reloaded = false) := by
  cases products with
  | nil =>
    cases hasLoaded <;> cases isMounted <;> cases fetchOk <;>
      simp [ProductDetailPage.loadData, ProductDetailPage.findProduct]
  | cons p rest =>
    have hlen : ¬ (((p :: rest).length : Int) = 0) := by
      rw [List.length_cons]
      omega
    have hpos : (((p :: rest).length : Int) > 0) := by
      rw [List.length_cons]
      omega
    unfold ProductDetailPage.loadData
    simp only [hlen, hpos, decide_False, decide_True, Bool.false_and, Bool.and_true,
      Bool.false_eq_true, if_false]
    cases isMounted
    · simp
    · cases hasLoaded
      · cases hfind : ProductDetailPage.findProduct (p :: rest) id <;> simp
      · cases hfind : ProductDetailPage.findProduct (p :: rest) id <;> simp

theorem loadData_reload_witness :
    (ProductDetailPage.loadData sampleProducts "unknown" false true true).reloaded = true ∧
    (ProductDetailPage.loadData [] "p1" false true true).reloaded = false :=
  ⟨(loadData_reload sampleProducts "unknown" false true true).2.1.mpr
      ⟨rfl, by decide, by decide, rfl⟩,
    (loadData_reload [] "p1" false true true).2.2 (by decide)⟩

/-- C15, as stated, fails: a run of `loadData` that starts from an empty list
fetches the collection and then looks the route id up in the empty list it
captured, so once loading is finished the page renders "not found" for an id
that the collection holds. -/
theorem detail_not_found_counterexample :
    (ProductDetailPage.loadData [] "p3" false true true).loadingCleared = true ∧
    ProductDetailPage.collectionAfter [] sampleProducts true = sampleProducts ∧
    ProductDetailPage.findProduct sampleProducts "p3" = some (mkProduct "p3" ["a", "b"]) ∧
    (ProductDetailPage.loadData [] "p3" false true true).foundProduct = none ∧
    ProductDetailPage.render
        (!(ProductDetailPage.loadData [] "p3" false true true).loadingCleared)
        (ProductDetailPage.loadData [] "p3" false true true).foundProduct
      = .notFound := by
  decide

/-- C15 (amended): once a run of `loadData` has finished loading, the page
renders the "not found" view whenever no product of the collection has the
route id; and when the run performed no fetch, its lookup yields the first
product of the collection whose `_id` is the route id, and the page renders
"not found" iff no product of the collection has that `_id`, and the detail
view of that product otherwise. -/
theorem detail_not_found (products serverProducts : List Product) (id : String)
    (hasLoaded isMounted fetchOk : Bool)
    (hdone :
      (ProductDetailPage.loadData products id hasLoaded isMounted fetchOk).loadingCleared
        = true) :
    ((∀ p ∈ ProductDetailPage.collectionAfter products serverProducts fetchOk, p._id ≠ id) →
      ProductDetailPage.render
        (!(ProductDetailPage.loadData products id hasLoaded isMounted fetchOk).loadingCleared)
        (ProductDetailPage.loadData products id hasLoaded isMounted fetchOk).foundProduct
          = .notFound) ∧
    ((ProductDetailPage.loadData products id hasLoaded isMounted fetchOk).fetched = false →
      ProductDetailPage.collectionAfter products serverProducts fetchOk = products ∧
      (ProductDetailPage.loadData products id hasLoaded isMounted fetchOk).foundProduct
        = ProductDetailPage.findProduct
            (ProductDetailPage.collectionAfter products serverProducts fetchOk) id ∧
      (∀ p, ProductDetailPage.findProduct
            (ProductDetailPage.collectionAfter products serverProducts fetchOk) id = some p ↔
        (p._id = id ∧ ∃ pre post,
          ProductDetailPage.collectionAfter products serverProducts fetchOk
            = pre ++ p :: post ∧ ∀ q ∈ pre, q._id ≠ id)) ∧
      (ProductDetailPage.render
          (!(ProductDetailPage.loadData products id hasLoaded isMounted fetchOk).loadingCleared)
          (ProductDetailPage.loadData products id hasLoaded isMounted fetchOk).foundProduct
            = .notFound
        ↔ ∀ p ∈ ProductDetailPage.collectionAfter products serverProducts fetchOk,
            p._id ≠ id) ∧
      (∀ p, ProductDetailPage.findProduct
            (ProductDetailPage.collectionAfter products serverProducts fetchOk) id = some p →
        ProductDetailPage.render
          (!(ProductDetailPage.loadData products id hasLoaded isMounted fetchOk).loadingCleared)
          (ProductDetailPage.loadData products id hasLoaded isMounted fetchOk).foundProduct
            = .detail p)) := by
  have hcaptured := loadData_lookup_captured products id hasLoaded isMounted fetchOk hdone
  have hsame : ¬ ((products.length : Int) = 0) →
      ProductDetailPage.collectionAfter products serverProducts fetchOk = products := by
    intro hlen
    unfold ProductDetailPage.collectionAfter
    simp [hlen]
  refine ⟨?_, ?_⟩
  · intro hnone
    by_cases hlen : (products.length : Int) = 0
    · have hnil : products = [] := by
        apply List.eq_nil_of_length_eq_zero
        omega
      apply hcaptured.2.2.1.mpr
      rw [hnil]
      intro p hp
      exact absurd hp (List.not_mem_nil p)
    · rw [hsame hlen] at hnone
      exact hcaptured.2.2.1.mpr hnone
  · intro hfetched
    rw [loadData_fetched] at hfetched
    have hlen : ¬ ((products.length : Int) = 0) := by simpa using hfetched
    rw [hsame hlen]
    exact ⟨rfl, hcaptured⟩

theorem detail_not_found_witness :
    ProductDetailPage.render
        (!(ProductDetailPage.loadData sampleProducts "p3" true true true).loadingCleared)
        (ProductDetailPage.loadData sampleProducts "p3" true true true).foundProduct
      = .detail (mkProduct "p3" ["a", "b"]) ∧
    ProductDetailPage.render
        (!(ProductDetailPage.loadData [] "zz" false true true).loadingCleared)
        (ProductDetailPage.loadData [] "zz" false true true).foundProduct
      = .notFound :=
  ⟨((detail_not_found sampleProducts [] "p3" true true true (by decide)).2 (by decide)).2.2.2.2
      (mkProduct "p3" ["a", "b"]) (by decide),
    (detail_not_found [] sampleProducts "zz" false true true (by decide)).1 (by decide)⟩

/-- C16 on the code: with `all` selected the filtered list is the whole
collection, but with a category selected the filter drops a product that
belongs to it, because `includes` compares the category records with the
selected name. -/
theorem filteredProducts_category_mismatch :
    CatalogPage.filteredProducts sampleProducts "all" = sampleProducts ∧
    CatalogPage.BelongsTo "a" (mkProduct "p1" ["a"]) ∧
    CatalogPage.filteredProducts [mkProduct "p1" ["a"], mkProduct "p2" ["b"]] "a" = [] ∧
    [mkProduct "p1" ["a"], mkProduct "p2" ["b"]].filter
        (fun p => decide (CatalogPage.BelongsTo "a" p)) = [mkProduct "p1" ["a"]] := by
  decide


/-- C17 (checkbox-set toggling): `handleCheckboxChange type value` flips the
membership of `value` in `formData[type]`, keeps every other element of that
list with its order and multiplicity, leaves the other fields unchanged and
preserves duplicate-freeness; toggling twice gives a list with the same
elements as the original. -/
theorem handleCheckboxChange_toggle (type : ProductForm.CheckboxType) (value : String)
    (prev : ProductForm.FormData) :
    (value ∈ (ProductForm.handleCheckboxChange type value prev).get type
      ↔ value ∉ prev.get type) ∧
    ((ProductForm.handleCheckboxChange type value prev).get type).filter
        (fun item => item != value)
      = (prev.get type).filter (fun item => item != value) ∧
    (∀ other, other ≠ type →
      (ProductForm.handleCheckboxChange type value prev).get other = prev.get other) ∧
    ((ProductForm.handleCheckboxChange type value prev).name = prev.name ∧
      (ProductForm.handleCheckboxChange type value prev).description = prev.description ∧
      (ProductForm.handleCheckboxChange type value prev).price = prev.price ∧
      (ProductForm.handleCheckboxChange type value prev).image = prev.image) ∧
    ((prev.get type).Nodup →
      ((ProductForm.handleCheckboxChange type value prev).get type).Nodup) ∧
    (∀ x, x ∈ (ProductForm.handleCheckboxChange type value
          (ProductForm.handleCheckboxChange type value prev)).get type
      ↔ x ∈ prev.get type) := by
  have hget : ∀ form : ProductForm.FormData,
      (ProductForm.handleCheckboxChange type value form).get type
        = if (form.get type).contains value
            then (form.get type).filter (fun item => item != value)
            else form.get type ++ [value] := by
    intro form
    unfold ProductForm.handleCheckboxChange
    rw [formData_get_set]
  have hmem : ∀ form : ProductForm.FormData,
      (value ∈ (ProductForm.handleCheckboxChange type value form).get type
        ↔ value ∉ form.get type) := by
    intro form
    rw [hget form]
    by_cases h : value ∈ form.get type
    · rw [if_pos (by simpa using h)]
      simp [h]
    · rw [if_neg (by simpa using h)]
      simp [h]
  have hother : ∀ (form : ProductForm.FormData) (x : String), x ≠ value →
      (x ∈ (ProductForm.handleCheckboxChange type value form).get type
        ↔ x ∈ form.get type) := by
    intro form x hx
    rw [hget form]
    split
    · simp [List.mem_filter, hx]
    · simp [hx]
  refine ⟨hmem prev, ?_, ?_, ?_, ?_, ?_⟩
  · rw [hget prev]
    split
    · rw [List.filter_filter]
      simp
    · rw [List.filter_append]
      simp
  · intro other hne
    unfold ProductForm.handleCheckboxChange
    exact formData_get_set_other _ _ _ _ hne
  · unfold ProductForm.handleCheckboxChange
    cases type <;> exact ⟨rfl, rfl, rfl, rfl⟩
  · intro hnodup
    rw [hget prev]
    split
    · exact hnodup.filter _
    · rename_i hnot
      rw [List.nodup_append]
      refine ⟨hnodup, List.nodup_singleton value, ?_⟩
      intro x hx hx2
      rw [List.mem_singleton] at hx2
      subst hx2
      exact hnot (by simpa using hx)
  · intro x
    by_cases hx : x = value
    · subst hx
      rw [hmem, hmem]
      exact not_not
    · rw [hother _ x hx, hother _ x hx]

theorem handleCheckboxChange_toggle_witness :
    "L" ∈ (ProductForm.handleCheckboxChange .sizes "L"
        ⟨"n", "d", "1", ["S", "M"], [], [], none⟩).get .sizes ∧
    ((ProductForm.handleCheckboxChange .sizes "L"
        ⟨"n", "d", "1", ["S", "M"], [], [], none⟩).get .sizes).Nodup ∧
    (ProductForm.handleCheckboxChange .sizes "L"
        ⟨"n", "d", "1", ["S", "M"], [], [], none⟩).get .colors = [] :=
  ⟨(handleCheckboxChange_toggle .sizes "L" ⟨"n", "d", "1", ["S", "M"], [], [], none⟩).1.mpr
      (by decide),
    (handleCheckboxChange_toggle .sizes "L" ⟨"n", "d", "1", ["S", "M"], [], [], none⟩).2.2.2.2.1
      (by decide),
    (handleCheckboxChange_toggle .sizes "L" ⟨"n", "d", "1", ["S", "M"], [], [], none⟩).2.2.1
      .colors (by decide)⟩

/-- C18 (pages partition the collection): for page size 4 (admin) and 12
(catalog), the slices of pages `1 … totalPages` concatenated in order give back
the collection; item `i` is entry `i % size` of page `i / size + 1`; a page has
at most `size` items, every page in `[1, totalPages]` is non-empty, every page
before the last is full, and every page after `totalPages` is empty. -/
theorem pages_partition (products filteredProducts : List Product) :
    (((List.range (ProductForm.totalPages products).toNat).map
          (fun (k : Nat) => ProductForm.currentProducts products ((k : Int) + 1))).flatten
        = products ∧
      (∀ i : Nat, i < products.length →
        (ProductForm.currentProducts products (((i / 4 : Nat) : Int) + 1))[i % 4]?
          = products[i]?) ∧
      (∀ p : Int, 1 ≤ p → (ProductForm.currentProducts products p).length ≤ 4) ∧
      (∀ p : Int, 1 ≤ p → p ≤ ProductForm.totalPages products →
        ProductForm.currentProducts products p ≠ []) ∧
      (∀ p : Int, 1 ≤ p → p < ProductForm.totalPages products →
        (ProductForm.currentProducts products p).length = 4) ∧
      (∀ p : Int, ProductForm.totalPages products < p →
        ProductForm.currentProducts products p = [])) ∧
    (((List.range (CatalogPage.totalPages filteredProducts).toNat).map
          (fun (k : Nat) =>
            CatalogPage.currentProducts filteredProducts ((k : Int) + 1))).flatten
        = filteredProducts ∧
      (∀ i : Nat, i < filteredProducts.length →
        (CatalogPage.currentProducts filteredProducts (((i / 12 : Nat) : Int) + 1))[i % 12]?
          = filteredProducts[i]?) ∧
      (∀ p : Int, 1 ≤ p → (CatalogPage.currentProducts filteredProducts p).length ≤ 12) ∧
      (∀ p : Int, 1 ≤ p → p ≤ CatalogPage.totalPages filteredProducts →
        CatalogPage.currentProducts filteredProducts p ≠ []) ∧
      (∀ p : Int, 1 ≤ p → p < CatalogPage.totalPages filteredProducts →
        (CatalogPage.currentProducts filteredProducts p).length = 12) ∧
      (∀ p : Int, CatalogPage.totalPages filteredProducts < p →
        CatalogPage.currentProducts filteredProducts p = [])) := by
  have htpA := admin_totalPages_eq products
  have htpC := catalog_totalPages_eq filteredProducts
  refine ⟨⟨?_, ?_, ?_, ?_, ?_, ?_⟩, ⟨?_, ?_, ?_, ?_, ?_, ?_⟩⟩
  · have hmap : (List.range (ProductForm.totalPages products).toNat).map
          (fun (k : Nat) => ProductForm.currentProducts products ((k : Int) + 1))
        = (List.range (ProductForm.totalPages products).toNat).map
          (fun (k : Nat) => (products.drop (k * 4)).take 4) := by
      apply List.map_congr_left
      intro k _
      rw [admin_currentProducts_eq products _ (by omega)]
      congr 2
      omega
    rw [hmap, flatten_chunks]
    apply List.take_of_length_le
    omega
  · intro i hi
    rw [admin_currentProducts_eq products _ (by omega),
      List.getElem?_take_of_lt (by omega), List.getElem?_drop]
    congr 1
    omega
  · intro p hp
    rw [admin_currentProducts_eq products p hp, List.length_take]
    omega
  · intro p hp hle hnil
    have hlen := congrArg List.length hnil
    rw [admin_currentProducts_eq products p hp, List.length_take, List.length_drop,
      List.length_nil] at hlen
    omega
  · intro p hp hlt
    rw [admin_currentProducts_eq products p hp, List.length_take, List.length_drop]
    omega
  · intro p hlt
    have hp : 1 ≤ p := by omega
    rw [admin_currentProducts_eq products p hp]
    apply List.eq_nil_of_length_eq_zero
    rw [List.length_take, List.length_drop]
    omega
  · have hmap : (List.range (CatalogPage.totalPages filteredProducts).toNat).map
          (fun (k : Nat) => CatalogPage.currentProducts filteredProducts ((k : Int) + 1))
        = (List.range (CatalogPage.totalPages filteredProducts).toNat).map
          (fun (k : Nat) => (filteredProducts.drop (k * 12)).take 12) := by
      apply List.map_congr_left
      intro k _
      rw [catalog_currentProducts_eq filteredProducts _ (by omega)]
      congr 2
      omega
    rw [hmap, flatten_chunks]
    apply List.take_of_length_le
    omega
  · intro i hi
    rw [catalog_currentProducts_eq filteredProducts _ (by omega),
      List.getElem?_take_of_lt (by omega), List.getElem?_drop]
    congr 1
    omega
  · intro p hp
    rw [catalog_currentProducts_eq filteredProducts p hp, List.length_take]
    omega
  · intro p hp hle hnil
    have hlen := congrArg List.length hnil
    rw [catalog_currentProducts_eq filteredProducts p hp, List.length_take, List.length_drop,
      List.length_nil] at hlen
    omega
  · intro p hp hlt
    rw [catalog_currentProducts_eq filteredProducts p hp, List.length_take, List.length_drop]
    omega
  · intro p hlt
    have hp : 1 ≤ p := by omega
    rw [catalog_currentProducts_eq filteredProducts p hp]
    apply List.eq_nil_of_length_eq_zero
    rw [List.length_take, List.length_drop]
    omega

theorem pages_partition_witness :
    ProductForm.currentProducts sampleProducts 3 ≠ [] ∧
    (ProductForm.currentProducts sampleProducts 2).length = 4 ∧
    ProductForm.currentProducts sampleProducts 4 = [] :=
  have h3 : ProductForm.totalPages sampleProducts = 3 := by
    rw [admin_totalPages_eq]
    decide
  ⟨(pages_partition sampleProducts sampleProducts).1.2.2.2.1 3 (by decide) (by rw [h3]),
    (pages_partition sampleProducts sampleProducts).1.2.2.2.2.1 2 (by decide)
      (by rw [h3]; decide),
    (pages_partition sampleProducts sampleProducts).1.2.2.2.2.2 4 (by rw [h3]; decide)⟩


end Frontend
